import Mathlib

/-!
Verification of the nfl-frenzy-backend core logic against its specification.

The definitions below are shallow embeddings of the JavaScript source:

* team-name canonicalization (`scripts/syncKickoffsFromSportsdata.js`
  `canonicalTeam`, `scripts/shiftKickoffsByDrift.js` `canonicalSlug`),
* kickoff timestamp normalization (the `easternLocalToUtcIso` /
  `isUsDstInEffect` / `getApiKickoffUtc` family of the sync scripts),
* kickoff update gating (delta thresholds, week floors),
* the weekly scoring engine (`routes/games.js` `computeWeekTable` and the
  public-picks scoring of `routes/picks.js`).

JavaScript numbers holding integer data (scores, predictions, epoch
milliseconds) are modelled as `Int`/`Nat`; `Infinity` sentinels are modelled
with explicit `inf` constructors; SQL `NULL` is `Option.none`; `toLowerCase`
is modelled on ASCII (all data the repo handles is ASCII team names and
ISO timestamps).
-/

/-! ## Character and slug utilities

`slug` in both sync scripts is
`(s || "").toLowerCase().replace(/[^a-z0-9]/g, "")`:
lowercase, then keep only ASCII lowercase letters and digits. -/

def toLowerAscii (c : Char) : Char :=
  if 65 ≤ c.toNat ∧ c.toNat ≤ 90 then Char.ofNat (c.toNat + 32) else c

def isLowerAlnum (c : Char) : Bool :=
  (97 ≤ c.toNat && c.toNat ≤ 122) || (48 ≤ c.toNat && c.toNat ≤ 57)

def slug (s : String) : String :=
  String.mk ((s.data.map toLowerAscii).filter (fun c => isLowerAlnum c))

/-! ## Team-name canonicalization, variant 1:
`canonicalTeam` from `scripts/syncKickoffsFromSportsdata.js`.
A direct lookup table from slugged spellings to canonical slugs, falling back
to the cleaned slug itself ("soft-fail"). -/

def lookupStr (k : String) : List (String × String) → Option String
  | [] => none
  | (a, v) :: rest => if k = a then some v else lookupStr k rest

def canonMapSync : List (String × String) :=
  [ ("arizonacardinals", "arizonacardinals"), ("cardinals", "arizonacardinals"),
    ("atlantafalcons", "atlantafalcons"), ("falcons", "atlantafalcons"),
    ("baltimoreravens", "baltimoreravens"), ("ravens", "baltimoreravens"),
    ("buffalobills", "buffalobills"), ("bills", "buffalobills"),
    ("carolinapanthers", "carolinapanthers"), ("panthers", "carolinapanthers"),
    ("chicagobears", "chicagobears"), ("bears", "chicagobears"),
    ("cincinnatibengals", "cincinnatibengals"), ("bengals", "cincinnatibengals"),
    ("clevelandbrowns", "clevelandbrowns"), ("browns", "clevelandbrowns"),
    ("dallascowboys", "dallascowboys"), ("cowboys", "dallascowboys"),
    ("denverbroncos", "denverbroncos"), ("broncos", "denverbroncos"),
    ("detroitlions", "detroitlions"), ("lions", "detroitlions"),
    ("greenbaypackers", "greenbaypackers"), ("packers", "greenbaypackers"),
    ("gbpackers", "greenbaypackers"),
    ("houstontexans", "houstontexans"), ("texans", "houstontexans"),
    ("indianapoliscolts", "indianapoliscolts"), ("colts", "indianapoliscolts"),
    ("jacksonvillejaguars", "jacksonvillejaguars"),
    ("jags", "jacksonvillejaguars"), ("jaguars", "jacksonvillejaguars"),
    ("kansascitychiefs", "kansascitychiefs"), ("chiefs", "kansascitychiefs"),
    ("kcchiefs", "kansascitychiefs"),
    ("lasvegasraiders", "lasvegasraiders"), ("raiders", "lasvegasraiders"),
    ("losangeleschargers", "losangeleschargers"),
    ("chargers", "losangeleschargers"), ("lachargers", "losangeleschargers"),
    ("losangelesrams", "losangelesrams"), ("rams", "losangelesrams"),
    ("larams", "losangelesrams"),
    ("miamidolphins", "miamidolphins"), ("dolphins", "miamidolphins"),
    ("minnesotavikings", "minnesotavikings"), ("vikings", "minnesotavikings"),
    ("newenglandpatriots", "newenglandpatriots"),
    ("patriots", "newenglandpatriots"), ("nepatriots", "newenglandpatriots"),
    ("neworleanssaints", "neworleanssaints"), ("saints", "neworleanssaints"),
    ("newyorkgiants", "newyorkgiants"), ("giants", "newyorkgiants"),
    ("nygiants", "newyorkgiants"),
    ("newyorkjets", "newyorkjets"), ("jets", "newyorkjets"),
    ("nyjets", "newyorkjets"),
    ("philadelphiaeagles", "philadelphiaeagles"),
    ("eagles", "philadelphiaeagles"),
    ("pittsburghsteelers", "pittsburghsteelers"),
    ("steelers", "pittsburghsteelers"),
    ("sanfrancisco49ers", "sanfrancisco49ers"), ("49ers", "sanfrancisco49ers"),
    ("niners", "sanfrancisco49ers"),
    ("seattleseahawks", "seattleseahawks"), ("seahawks", "seattleseahawks"),
    ("tampabaybuccaneers", "tampabaybuccaneers"),
    ("buccaneers", "tampabaybuccaneers"), ("bucs", "tampabaybuccaneers"),
    ("tennesseetitans", "tennesseetitans"), ("titans", "tennesseetitans"),
    ("washingtoncommanders", "washingtoncommanders"),
    ("commanders", "washingtoncommanders"),
    ("washingtonfootballteam", "washingtoncommanders") ]

def canonicalTeam (raw : String) : String :=
  let x := slug raw
  (lookupStr x canonMapSync).getD x

/-! ## Team-name canonicalization, variant 2:
`canonicalSlug` from `scripts/shiftKickoffsByDrift.js`.
A sequence of anchored regex rewrites `^p(?=(t1|...|tn)$)` (which match the
exact strings `p ++ ti` and replace the `p` part only), then a nickname
lookup table, then soft-fail to the slug itself. -/

def replLook (p : String) (rests : List String) (r : String) (x : String) :
    String :=
  match rests.find? (fun t => decide (x = p ++ t)) with
  | some t => r ++ t
  | none => x

def nicknameToCity : List (String × String) :=
  [ ("cardinals", "arizonacardinals"), ("falcons", "atlantafalcons"),
    ("ravens", "baltimoreravens"), ("bills", "buffalobills"),
    ("panthers", "carolinapanthers"), ("bears", "chicagobears"),
    ("bengals", "cincinnatibengals"), ("browns", "clevelandbrowns"),
    ("cowboys", "dallascowboys"), ("broncos", "denverbroncos"),
    ("lions", "detroitlions"), ("packers", "greenbaypackers"),
    ("texans", "houstontexans"), ("colts", "indianapoliscolts"),
    ("jaguars", "jacksonvillejaguars"), ("chiefs", "kansascitychiefs"),
    ("raiders", "lasvegasraiders"), ("chargers", "losangeleschargers"),
    ("rams", "losangelesrams"), ("dolphins", "miamidolphins"),
    ("vikings", "minnesotavikings"), ("patriots", "newenglandpatriots"),
    ("saints", "neworleanssaints"), ("giants", "newyorkgiants"),
    ("jets", "newyorkjets"), ("eagles", "philadelphiaeagles"),
    ("steelers", "pittsburghsteelers"), ("niners", "sanfrancisco49ers"),
    ("49ers", "sanfrancisco49ers"), ("seahawks", "seattleseahawks"),
    ("buccaneers", "tampabaybuccaneers"), ("titans", "tennesseetitans"),
    ("commanders", "washingtoncommanders") ]

def rewriteChain (y : String) : String :=
  let x := replLook "la" ["rams", "chargers"] "losangeles" y
  let x := replLook "ny" ["jets", "giants"] "newyork" x
  let x := replLook "kc" ["chiefs"] "kansascity" x
  let x := replLook "ne" ["patriots"] "newengland" x
  let x := replLook "no" ["saints"] "neworleans" x
  let x := replLook "sf" ["49ers"] "sanfrancisco" x
  let x := replLook "tb" ["buccaneers", "bucs"] "tampabay" x
  let x := replLook "gb" ["packers"] "greenbay" x
  let x := replLook "lv" ["raiders"] "lasvegas" x
  let x := replLook "jax" ["jaguars"] "jacksonville" x
  let x := replLook "was" ["footballteam", "commanders"] "washingtoncommanders" x
  replLook "washington" ["footballteam"] "washingtoncommanders" x

def canonicalSlugCore (y : String) : String :=
  let x := rewriteChain y
  (lookupStr x nicknameToCity).getD x

def canonicalSlug (raw : String) : String :=
  canonicalSlugCore (slug raw)

/-! ## Calendar arithmetic

`epochDays` is the standard civil-from-days algorithm: the number of days
from 1970-01-01 to the proleptic Gregorian date `(y, m, d)` (month 1..12).
For the years handled here (`1 ≤ y`) it coincides with JavaScript
`Date.UTC(y, m - 1, d) / 86400000`.  `Int` division in Lean is Euclidean,
which on the non-negative intermediate values below equals floor division. -/

def epochDays (y m d : Int) : Int :=
  let yAdj : Int := if m ≤ 2 then y - 1 else y
  let era : Int := yAdj / 400
  let yoe : Int := yAdj - era * 400
  let mp : Int := if m ≤ 2 then m + 9 else m - 3
  let doy : Int := (153 * mp + 2) / 5 + d - 1
  let doe : Int := yoe * 365 + yoe / 4 - yoe / 100 + doy
  era * 146097 + doe - 719468

/-- Epoch milliseconds of the UTC instant with the given civil fields;
models JavaScript `Date.UTC(y, m - 1, d, h, mi, s)` (month 1..12). -/
def utcMs (y m d h mi s : Int) : Int :=
  (epochDays y m d * 86400 + h * 3600 + mi * 60 + s) * 1000

/-- Day of week of a proleptic Gregorian date, 0 = Sunday; models
`new Date(Date.UTC(y, m - 1, d)).getUTCDay()`. 1970-01-01 was a Thursday. -/
def dayOfWeek (y m d : Int) : Int :=
  (epochDays y m d + 4) % 7

/-! ## DST window — `isUsDstInEffect(year, month, day)` from the
kickoff reconciler (src/unnamed/part_000, the canonical
`syncKickoffsFromSportsdata.js` variant).  It computes the second Sunday of
March and the first Sunday of November for the given year and compares
month/day as an `MMDD` number. -/

def firstSundayInMarch (year : Int) : Int :=
  let marchFirstDow := dayOfWeek year 3 1
  if marchFirstDow = 0 then 1 else 8 - marchFirstDow

def secondSundayInMarch (year : Int) : Int :=
  firstSundayInMarch year + 7

def firstSundayInNov (year : Int) : Int :=
  let novFirstDow := dayOfWeek year 11 1
  if novFirstDow = 0 then 1 else 8 - novFirstDow

def isUsDstInEffect (year month day : Int) : Bool :=
  let mmdd := month * 100 + day
  let dstStart := 3 * 100 + secondSundayInMarch year
  let dstEnd := 11 * 100 + firstSundayInNov year
  decide (dstStart ≤ mmdd ∧ mmdd < dstEnd)

/-! ## Kickoff timestamp normalization (`easternLocalToUtcIso`,
`getApiKickoffUtc`).  The returned ISO string is modelled by its epoch
millisecond instant.  `Number(...)` on the split fields is modelled for
decimal digit strings (all the feed carries); `Number("")` is `0` in
JavaScript and `Number(undefined)` is `NaN`. -/

def isDigitChar (c : Char) : Bool := 48 ≤ c.toNat && c.toNat ≤ 57

def digitsToNat (l : List Char) : Nat :=
  l.foldl (fun acc c => acc * 10 + (c.toNat - 48)) 0

def jsNumber (os : Option (List Char)) : Option Int :=
  match os with
  | none => none
  | some s =>
    if s = [] then some 0
    else if s.all isDigitChar then some (Int.ofNat (digitsToNat s))
    else none

/-- JavaScript `str.split(sep)` for a single-character separator. -/
def splitOnChar (sep : Char) : List Char → List (List Char)
  | [] => [[]]
  | c :: rest =>
    let r := splitOnChar sep rest
    if c = sep then [] :: r
    else
      match r with
      | [] => [[c]]
      | h :: t => (c :: h) :: t

structure CivilTime where
  year : Int
  month : Int
  day : Int
  hour : Int
  minute : Int
  second : Int
deriving DecidableEq, Repr

/-- The split-and-`Number` parsing part of `easternLocalToUtcIso`:
`split("T")`, `split("-")`, `split(":")` (seconds defaulting to `"00"`
when absent), then `Number` on each field with `isFinite` checks. -/
def easternFields (localStr : String) : Option CivilTime :=
  let parts := splitOnChar 'T' localStr.data
  match parts.get? 0, parts.get? 1 with
  | some dp, some tp =>
    if dp = [] || tp = [] then none
    else
      let dparts := splitOnChar '-' dp
      let tparts := splitOnChar ':' tp
      let secStr := match tparts.get? 2 with
        | none => some ['0', '0']
        | some s => some s
      match jsNumber (dparts.get? 0), jsNumber (dparts.get? 1),
          jsNumber (dparts.get? 2), jsNumber (tparts.get? 0),
          jsNumber (tparts.get? 1), jsNumber secStr with
      | some y, some mo, some d, some h, some mi, some s =>
        some ⟨y, mo, d, h, mi, s⟩
      | _, _, _, _, _, _ => none
  | _, _ => none

/-- The arithmetic part of `easternLocalToUtcIso`: decide DST from the
civil date, Eastern offset −4 h (DST) or −5 h (standard), then
`Date.UTC(...) - offsetMinutes * 60 * 1000`. -/
def easternFieldsToMs (f : CivilTime) : Int :=
  let offsetMinutes : Int :=
    if isUsDstInEffect f.year f.month f.day then -4 * 60 else -5 * 60
  utcMs f.year f.month f.day f.hour f.minute f.second - offsetMinutes * 60000

def easternLocalToUtcMs (localStr : String) : Option Int :=
  (easternFields localStr).map easternFieldsToMs

/-- Regex `/[+\-]\d\d:?\d\d$/` checked from the end of the string. -/
def tzOffsetSuffix (rev : List Char) : Bool :=
  match rev with
  | b :: a :: ':' :: d :: c :: s :: _ =>
    isDigitChar b && isDigitChar a && isDigitChar d && isDigitChar c &&
      (s = '+' || s = '-')
  | b :: a :: d :: c :: s :: _ =>
    isDigitChar b && isDigitChar a && isDigitChar d && isDigitChar c &&
      (s = '+' || s = '-')
  | _ => false

/-- Regex test `/[zZ]$/.test(src) || /[+\-]\d\d:?\d\d$/.test(src)`. -/
def hasExplicitTz (s : String) : Bool :=
  (match s.data.reverse with
   | c :: _ => c = 'z' || c = 'Z'
   | [] => false) || tzOffsetSuffix s.data.reverse

def daysInMonth (y m : Int) : Int :=
  if m = 2 then
    (if y % 4 = 0 && (y % 100 ≠ 0 || y % 400 = 0) then 29 else 28)
  else if m = 4 || m = 6 || m = 9 || m = 11 then 30
  else 31

def civilInRange (f : CivilTime) : Bool :=
  decide (1 ≤ f.month ∧ f.month ≤ 12 ∧ 1 ≤ f.day ∧
    f.day ≤ daysInMonth f.year f.month ∧ 0 ≤ f.hour ∧ f.hour ≤ 23 ∧
    0 ≤ f.minute ∧ f.minute ≤ 59 ∧ 0 ≤ f.second ∧ f.second ≤ 59)

def parseTwoDigits (a b : Char) : Option Int :=
  if isDigitChar a && isDigitChar b then
    some (Int.ofNat ((a.toNat - 48) * 10 + (b.toNat - 48)))
  else none

/-- Strict body parser for `YYYY-MM-DDTHH:MM:SS` (the shape the feed
produces), as `new Date(...)` accepts for the date-time part. -/
def parseIsoBody (l : List Char) : Option CivilTime :=
  match l with
  | [y1, y2, y3, y4, '-', m1, m2, '-', d1, d2, 'T', h1, h2, ':', n1, n2,
      ':', s1, s2] =>
    if [y1, y2, y3, y4, m1, m2, d1, d2, h1, h2, n1, n2, s1, s2].all
        isDigitChar then
      let f : CivilTime :=
        ⟨Int.ofNat (digitsToNat [y1, y2, y3, y4]),
         Int.ofNat (digitsToNat [m1, m2]), Int.ofNat (digitsToNat [d1, d2]),
         Int.ofNat (digitsToNat [h1, h2]), Int.ofNat (digitsToNat [n1, n2]),
         Int.ofNat (digitsToNat [s1, s2])⟩
      if civilInRange f then some f else none
    else none
  | _ => none

/-- Split a reversed char list into (reversed body, signed offset minutes)
when it ends in `±HH:MM` or `±HHMM`. -/
def offsetSplit (rev : List Char) : Option (List Char × Int) :=
  match rev with
  | b :: a :: ':' :: d :: c :: sgn :: bodyRev =>
    match parseTwoDigits c d, parseTwoDigits a b with
    | some hh, some mm =>
      if sgn = '+' then some (bodyRev, hh * 60 + mm)
      else if sgn = '-' then some (bodyRev, -(hh * 60 + mm))
      else none
    | _, _ => none
  | b :: a :: d :: c :: sgn :: bodyRev =>
    match parseTwoDigits c d, parseTwoDigits a b with
    | some hh, some mm =>
      if sgn = '+' then some (bodyRev, hh * 60 + mm)
      else if sgn = '-' then some (bodyRev, -(hh * 60 + mm))
      else none
    | _, _ => none
  | _ => none

def civilMs (f : CivilTime) : Int :=
  utcMs f.year f.month f.day f.hour f.minute f.second

/-- Model of `new Date(src).toISOString()` (as an epoch-ms instant) for the
ISO date-time strings with an explicit `Z`/`z` or `±HH:MM`/`±HHMM` offset
suffix that the feed produces; anything else is `NaN` (`none`). -/
def jsParseExplicitMs (s : String) : Option Int :=
  match s.data.reverse with
  | c :: restRev =>
    if c = 'Z' || c = 'z' then
      (parseIsoBody restRev.reverse).map civilMs
    else
      match offsetSplit s.data.reverse with
      | some (bodyRev, offMin) =>
        (parseIsoBody bodyRev.reverse).map (fun f => civilMs f - offMin * 60000)
      | none => none
  | [] => none

/-- Function `getApiKickoffUtc` from the canonical reconciler: choose
`game.DateTime || game.DateTimeUTC`; trust an explicit offset or `Z` suffix
directly; otherwise (or when the explicit parse fails) interpret the naive
string as Eastern local time. -/
def getApiKickoffUtc (dateTime dateTimeUtc : Option String) : Option Int :=
  let src := match dateTime with
    | some s => if s = "" then
        (match dateTimeUtc with
         | some u => if u = "" then none else some u
         | none => none)
      else some s
    | none => match dateTimeUtc with
      | some u => if u = "" then none else some u
      | none => none
  match src with
  | none => none
  | some s =>
    if hasExplicitTz s then
      match jsParseExplicitMs s with
      | some ms => some ms
      | none => easternLocalToUtcMs s
    else easternLocalToUtcMs s

/-- The exact strings that any of the twelve anchored rewrite rules can
match (`p ++ t` for each rule `^p(?=(..|t|..)$)`). -/
def rewriteDomain : List String :=
  [ "larams", "lachargers", "nyjets", "nygiants", "kcchiefs", "nepatriots",
    "nosaints", "sf49ers", "tbbuccaneers", "tbbucs", "gbpackers", "lvraiders",
    "jaxjaguars", "wasfootballteam", "wascommanders", "washingtonfootballteam" ]

/-! ## Kickoff update gating and reconciliation row selection.

Models the update loops of `scripts/syncKickoffsFromSportsdata.js` (the
named script: `getDbGames` + the `Math.round`-seconds delta gate), of the
canonical reconciler in src/unnamed/part_000 (set-on-missing + strict
one-minute gate), and of `scripts/shiftKickoffsByDrift.js` (week floor +
rounded-minutes drift gate).  Schedule/odds `Map`s are modelled as
association lists from the scripts' match keys; `APPLY` (dry-run) only
gates the writes, so the update list below is what an applying run writes. -/

structure DbGame where
  id : Nat
  week : Int
  home_team : String
  away_team : String
  kickoff : Option Int
deriving DecidableEq, Repr

def lookupBy {κ α : Type} [DecidableEq κ] (k : κ) : List (κ × α) → Option α
  | [] => none
  | (a, v) :: rest => if k = a then some v else lookupBy k rest

/-- Function `matchKey` of syncKickoffsFromSportsdata.js. -/
def matchKey (home away : String) : String :=
  canonicalTeam home ++ "__" ++ canonicalTeam away

/-- Function `matchupKey` of shiftKickoffsByDrift.js. -/
def matchupKey (home away : String) : String :=
  canonicalSlug home ++ "__" ++ canonicalSlug away

/-- Function `normalizeTeamName` of the part_000 reconciler: trim, lowercase, strip
dots, collapse whitespace runs to single spaces. -/
def isWsChar (c : Char) : Bool :=
  c = ' ' || c = '\t' || c = '\n' || c = '\r'

def collapseWs : List Char → List Char
  | [] => []
  | [c] => [if isWsChar c then ' ' else c]
  | a :: b :: rest =>
    if isWsChar a && isWsChar b then collapseWs (b :: rest)
    else (if isWsChar a then ' ' else a) :: collapseWs (b :: rest)

def jsTrim (l : List Char) : List Char :=
  ((l.dropWhile isWsChar).reverse.dropWhile isWsChar).reverse

def normalizeTeamName (s : String) : String :=
  String.mk
    (collapseWs (((jsTrim s.data).map toLowerAscii).filter (fun c => !(c = '.'))))

/-- Query filter of `getDbGames` in syncKickoffsFromSportsdata.js:
`WHERE kickoff IS NOT NULL AND week >= $minWeek`. -/
def getDbGamesFilter (rows : List DbGame) (minWeek : Int) : List DbGame :=
  rows.filter (fun g => g.kickoff.isSome && decide (minWeek ≤ g.week))

/-- Model of `Math.round(deltaMs / 1000)`: JavaScript rounds half toward +inf,
so this is floor((deltaMs + 500) / 1000). -/
def jsRoundSec (deltaMs : Int) : Int := Int.fdiv (deltaMs + 500) 1000

/-- The named script's gate: `Math.abs(deltaSec) >= MAX_DELTA_SEC` with
`MAX_DELTA_SEC = 60`. -/
def syncShouldUpdate (deltaMs : Int) : Bool :=
  decide ((60 : Int) ≤ (jsRoundSec deltaMs).natAbs)

def syncRowAction (sched : List (String × Int)) (g : DbGame) :
    Option (Nat × Int) :=
  match lookupBy (matchKey g.home_team g.away_team) sched with
  | none => none
  | some apiTs =>
    match g.kickoff with
    | none => none
    | some dbTs =>
      if syncShouldUpdate (apiTs - dbTs) then some (g.id, apiTs) else none

def syncUpdates (rows : List DbGame) (minWeek : Int)
    (sched : List (String × Int)) : List (Nat × Int) :=
  (getDbGamesFilter rows minWeek).filterMap (syncRowAction sched)

/-- The part_000 reconciler's gate:
`diffMin = Math.abs(diffMs) / 60000; if (diffMin > 1)`, i.e. strictly more
than 60 000 ms. -/
def p0ShouldUpdate (deltaMs : Int) : Bool :=
  decide ((60000 : Int) < deltaMs.natAbs)

/-- One row of the part_000 compare-and-update loop.  The schedule map is
keyed `week|away|home` (modelled as a tuple); its entries carry the
provider's `DateTime` and `DateTimeUTC` strings, resolved through
`getApiKickoffUtc`. -/
def p0RowAction
    (sched : List ((Int × String × String) × (Option String × Option String)))
    (g : DbGame) : Option (Nat × Int) :=
  match lookupBy (g.week, normalizeTeamName g.away_team,
      normalizeTeamName g.home_team) sched with
  | none => none
  | some (dt, dtUtc) =>
    match getApiKickoffUtc dt dtUtc with
    | none => none
    | some apiTs =>
      match g.kickoff with
      | none => some (g.id, apiTs)
      | some dbTs =>
        if p0ShouldUpdate (apiTs - dbTs) then some (g.id, apiTs) else none

/-- part_000 loads rows with `WHERE week >= 1` (no null-kickoff filter). -/
def p0Updates (rows : List DbGame)
    (sched : List ((Int × String × String) × (Option String × Option String))) :
    List (Nat × Int) :=
  (rows.filter (fun g => decide ((1 : Int) ≤ g.week))).filterMap
    (p0RowAction sched)

/-- Model of `Math.round(deltaMs / 60000)` (shiftKickoffsByDrift's deltaMin). -/
def jsRoundMin (deltaMs : Int) : Int := Int.fdiv (deltaMs + 30000) 60000

def shiftRowAction (odds : List (String × Int)) (threshMin : Int)
    (g : DbGame) : Option (Nat × Int) :=
  match lookupBy (matchupKey g.home_team g.away_team) odds with
  | none => none
  | some commence =>
    match g.kickoff with
    | none => none
    | some dbKick =>
      if threshMin ≤ ((jsRoundMin (commence - dbKick)).natAbs : Int) then
        some (g.id, commence)
      else none

/-- shiftKickoffsByDrift loads rows with `WHERE week >= $minWeek`, audits
joinable rows, and applies fixes where `|deltaMin| >= THRESH_MIN`. -/
def shiftUpdates (rows : List DbGame) (minWeek threshMin : Int)
    (odds : List (String × Int)) : List (Nat × Int) :=
  (rows.filter (fun g => decide (minWeek ≤ g.week))).filterMap
    (shiftRowAction odds threshMin)

/-! ## Weekly scoring engine — data model.

Rows of the `games`, `picks` (joined to `users`), `game_of_the_week` and
`player_of_the_week` tables, as read by `routes/games.js`
(`computeWeekTable`) and `routes/picks.js` (the public picks route).
Scores, predictions and yardage are integers; `created_at` is an epoch-ms
submission instant. -/

structure GameRow where
  week : Int
  home_team : String
  away_team : String
  home_score : Option Int
  away_score : Option Int
  favorite : Option String
deriving DecidableEq, Repr

structure PickRow where
  user_id : Nat
  week : Int
  team : String
  gotw_prediction : Option Int
  potw_prediction : Option Int
  created_at : Option Int
  first_name : String
deriving DecidableEq, Repr

structure GotwRow where
  week : Int
  home_team : String
  away_team : String
  game_total_points : Option Int
deriving DecidableEq, Repr

structure PotwRow where
  week : Int
  player_total_yards : Option Int
deriving DecidableEq, Repr

/-- JavaScript `g.favorite || null`: an empty-string favorite is falsy and
treated as absent. -/
def favOrNull (f : Option String) : Option String :=
  match f with
  | some s => if s = "" then none else some s
  | none => none

/-- The winner of a game row: both final scores present and unequal. -/
def winnerOf (g : GameRow) : Option String :=
  match g.home_score, g.away_score with
  | some hs, some aw =>
    if hs > aw then some g.home_team
    else if aw > hs then some g.away_team
    else none
  | _, _ => none

/-- Function `winnerAndFavorite` of routes/games.js. -/
def winnerAndFavorite : Option GameRow → Option String × Option String
  | none => (none, none)
  | some g => (winnerOf g, favOrNull g.favorite)

/-- Function `getGotwActualTotals` of routes/games.js, per week: prefer the explicit
`game_total_points` answer; else the featured game's final score sum; else
null. -/
def gotwActualForWeek (games : List GameRow) (gotwRows : List GotwRow)
    (w : Int) : Option Int :=
  match gotwRows.find? (fun r => decide (r.week = w)) with
  | none => none
  | some r =>
    match r.game_total_points with
    | some v => some v
    | none =>
      match (games.filter (fun g => decide (g.week = r.week))).find?
          (fun g => decide (g.home_team = r.home_team) &&
            decide (g.away_team = r.away_team)) with
      | some g =>
        match g.home_score, g.away_score with
        | some hs, some aw => some (hs + aw)
        | _, _ => none
      | none => none

/-- Function `getPotwYards` of routes/games.js, per week. -/
def potwOfficialForWeek (potwRows : List PotwRow) (w : Int) : Option Int :=
  match potwRows.find? (fun r => decide (r.week = w)) with
  | none => none
  | some r => r.player_total_yards

/-! ## Infinity-carrying comparison values.

`Number.POSITIVE_INFINITY` sentinels used by the GOTW tiebreak sorts. -/

inductive NatInf where
  | fin (n : Nat)
  | inf
deriving DecidableEq, Repr

def NatInf.ltB : NatInf → NatInf → Bool
  | fin a, fin b => a < b
  | fin _, inf => true
  | inf, _ => false

inductive IntInf where
  | fin (t : Int)
  | inf
deriving DecidableEq, Repr

def IntInf.ltB : IntInf → IntInf → Bool
  | fin a, fin b => a < b
  | fin _, inf => true
  | inf, _ => false

/-- Stable insertion sort: the model of JavaScript `Array.prototype.sort`
with a consistent comparator (spec-mandated: a stable, sorted permutation).
An element is inserted after every element `le`-below-or-equal to it, which
preserves the original order of ties exactly as a stable sort does. -/
def insertLe {α : Type} (le : α → α → Bool) (x : α) : List α → List α
  | [] => [x]
  | y :: rest => if le y x then y :: insertLe le x rest else x :: y :: rest

def sortLe {α : Type} (le : α → α → Bool) (l : List α) : List α :=
  l.foldl (fun acc x => insertLe le x acc) []

/-! ## `computeWeekTable` of routes/games.js. -/

structure Contender where
  user_id : Nat
  diff : Nat
  potwDiff : NatInf
  created : IntInf
deriving DecidableEq, Repr

/-- The contender comparator of `computeWeekTable`: ascending GOTW diff,
then ascending POTW diff (`Infinity` when unavailable), then earlier
submission (`Infinity` when missing), then user id. -/
def contLe (a b : Contender) : Bool :=
  if a.diff < b.diff then true
  else if b.diff < a.diff then false
  else if NatInf.ltB a.potwDiff b.potwDiff then true
  else if NatInf.ltB b.potwDiff a.potwDiff then false
  else if IntInf.ltB a.created b.created then true
  else if IntInf.ltB b.created a.created then false
  else a.user_id ≤ b.user_id

/-- The contenders loop: only picks with a GOTW prediction, and only when
an actual total is known. -/
def mkContenders (picks : List PickRow) (gotwActual potwOfficial : Option Int) :
    List Contender :=
  match gotwActual with
  | none => []
  | some actual =>
    picks.filterMap (fun p =>
      match p.gotw_prediction with
      | none => none
      | some gPred =>
        some { user_id := p.user_id,
               diff := (gPred - actual).natAbs,
               potwDiff :=
                 match potwOfficial with
                 | some yv =>
                   match p.potw_prediction with
                   | some pp => NatInf.fin (pp - yv).natAbs
                   | none => NatInf.inf
                 | none => NatInf.inf,
               created :=
                 match p.created_at with
                 | some t => IntInf.fin t
                 | none => IntInf.inf })

/-- Podium `contenders.slice(0, 3).map((c, i) => ({..., award: [3,2,1][i]}))`. -/
def podiumOf (contenders : List Contender) : List (Nat × Nat) :=
  List.zipWith (fun c a => (c.user_id, a)) ((sortLe contLe contenders).take 3)
    [3, 2, 1]

def potwExactOf (picks : List PickRow) (potwOfficial : Option Int) :
    List (Nat × Nat) :=
  match potwOfficial with
  | none => []
  | some yv =>
    picks.filterMap (fun p =>
      match p.potw_prediction with
      | some pp => if pp = yv then some (p.user_id, 3) else none
      | none => none)

structure URow where
  user_id : Nat
  base_points : Nat
  gotw_points : Nat
  potw_points : Nat
  correct_favorites : Nat
  correct_underdogs : Nat
deriving DecidableEq, Repr

def newURow (u : Nat) : URow := ⟨u, 0, 0, 0, 0, 0⟩

/-- Helper `ensure(u, ...)`: insert a fresh aggregate row on first sight. -/
def ensureUser (m : List URow) (u : Nat) : List URow :=
  if m.any (fun r => r.user_id = u) then m else m ++ [newURow u]

/-- Map-entry `byUser.get(u)` mutation: update the row when present, no-op otherwise. -/
def mapUser (m : List URow) (u : Nat) (f : URow → URow) : List URow :=
  m.map (fun r => if r.user_id = u then f r else r)

/-- One iteration of the base-points loop: find the picked team's game,
then `+1*factor` for a correct favorite, `+2*factor` for a correct
underdog (including when no favorite is recorded). -/
def baseStep (factor : Nat) (weekGames : List GameRow) (m : List URow)
    (p : PickRow) : List URow :=
  let g? := weekGames.find? (fun gm =>
    decide (gm.home_team = p.team) || decide (gm.away_team = p.team))
  let wf := winnerAndFavorite g?
  let m1 := ensureUser m p.user_id
  match wf.1 with
  | some wteam =>
    if p.team = wteam then
      match wf.2 with
      | some fav =>
        if fav = p.team then
          mapUser m1 p.user_id (fun r =>
            { r with base_points := r.base_points + 1 * factor,
                     correct_favorites := r.correct_favorites + 1 })
        else
          mapUser m1 p.user_id (fun r =>
            { r with base_points := r.base_points + 2 * factor,
                     correct_underdogs := r.correct_underdogs + 1 })
      | none =>
        mapUser m1 p.user_id (fun r =>
          { r with base_points := r.base_points + 2 * factor,
                   correct_underdogs := r.correct_underdogs + 1 })
    else m1
  | none => m1

def gotwStep (factor : Nat) (m : List URow) (a : Nat × Nat) : List URow :=
  mapUser m a.1 (fun r => { r with gotw_points := r.gotw_points + a.2 * factor })

def potwStep (factor : Nat) (m : List URow) (a : Nat × Nat) : List URow :=
  mapUser m a.1 (fun r => { r with potw_points := r.potw_points + a.2 * factor })

/-- The aggregation pipeline of `computeWeekTable` for a given scoring
factor: base loop over picks, then GOTW podium awards, then POTW exact
awards.  (The final display sort of the rows does not change any user's
points and is omitted.) -/
def weekTableCore (factor : Nat) (weekGames : List GameRow)
    (picks : List PickRow) (gotwActual potwOfficial : Option Int) :
    List URow :=
  let m := picks.foldl (baseStep factor weekGames) []
  let m := (podiumOf (mkContenders picks gotwActual potwOfficial)).foldl
    (gotwStep factor) m
  (potwExactOf picks potwOfficial).foldl (potwStep factor) m

/-- Function `computeWeekTable(week)` with the configured `DOUBLE_WEEKS` set
(default `[13, 17]`): factor 2 inside the set, 1 outside. -/
def computeWeekTable (doubleWeeks : List Int) (w : Int) (games : List GameRow)
    (gotwRows : List GotwRow) (potwRows : List PotwRow)
    (allPicks : List PickRow) : List URow :=
  let picks := allPicks.filter (fun p => decide (p.week = w))
  let weekGames := games.filter (fun g => decide (g.week = w))
  let factor := if doubleWeeks.contains w then 2 else 1
  weekTableCore factor weekGames picks (gotwActualForWeek games gotwRows w)
    (potwOfficialForWeek potwRows w)

/-- The same computation with the double-points multiplier disabled
(factor 1 unconditionally) — the spec's reference point for claim C4. -/
def computeWeekTableNoMult (w : Int) (games : List GameRow)
    (gotwRows : List GotwRow) (potwRows : List PotwRow)
    (allPicks : List PickRow) : List URow :=
  let picks := allPicks.filter (fun p => decide (p.week = w))
  let weekGames := games.filter (fun g => decide (g.week = w))
  weekTableCore 1 weekGames picks (gotwActualForWeek games gotwRows w)
    (potwOfficialForWeek potwRows w)

def totalPoints (r : URow) : Nat := r.base_points + r.gotw_points + r.potw_points

def userTotal (table : List URow) (u : Nat) : Option Nat :=
  (table.find? (fun r => r.user_id = u)).map totalPoints

def userGotwPoints (table : List URow) (u : Nat) : Option Nat :=
  (table.find? (fun r => r.user_id = u)).map (fun r => r.gotw_points)

/-! ## The public picks route of routes/picks.js.

The SQL join produces one row per pick joined to the game whose home or
away team equals the picked team (at most one per week by invariant), with
the week's `game_of_the_week` and `player_of_the_week` rows LEFT-joined
onto every row. -/

structure PubRow where
  first_name : String
  team : String
  gotw_prediction : Option Int
  potw_prediction : Option Int
  home_team : String
  away_team : String
  home_score : Option Int
  away_score : Option Int
  favorite : Option String
deriving DecidableEq, Repr

def mkPubRows (w : Int) (games : List GameRow) (picks : List PickRow) :
    List PubRow :=
  (picks.filter (fun p => decide (p.week = w))).filterMap (fun p =>
    match (games.filter (fun g => decide (g.week = w))).find? (fun g =>
        decide (p.team = g.home_team) || decide (p.team = g.away_team)) with
    | none => none
    | some g =>
      some { first_name := p.first_name, team := p.team,
             gotw_prediction := p.gotw_prediction,
             potw_prediction := p.potw_prediction,
             home_team := g.home_team, away_team := g.away_team,
             home_score := g.home_score, away_score := g.away_score,
             favorite := g.favorite })

/-- Value `gotwActualTotal` of the public picks route: derived solely from the
featured matchup's final scores among the joined rows — the admin override
`game_total_points` is selected by the query but never consulted here. -/
def pubGotwActual (rows : List PubRow) (gotwRow? : Option GotwRow) :
    Option Int :=
  match gotwRow? with
  | none => none
  | some gr =>
    if gr.home_team = "" || gr.away_team = "" then none
    else
      match rows.find? (fun r => decide (r.home_team = gr.home_team) &&
          decide (r.away_team = gr.away_team)) with
      | none => none
      | some r =>
        match r.home_score, r.away_score with
        | some hs, some aw => some (hs + aw)
        | _, _ => none

structure GPick where
  first_name : String
  diff : NatInf
  potw_diff : NatInf
deriving DecidableEq, Repr

/-- The mapped GOTW-ranking entries: every joined row participates; a
missing GOTW prediction yields `Infinity` diff
(`(r.gotw_prediction ?? Infinity) - gotwActualTotal`). -/
def mkGPicks (rows : List PubRow) (actual : Int) (potwYards : Option Int) :
    List GPick :=
  rows.map (fun r =>
    { first_name := r.first_name,
      diff := match r.gotw_prediction with
        | some gp => NatInf.fin (gp - actual).natAbs
        | none => NatInf.inf,
      potw_diff := match potwYards, r.potw_prediction with
        | some yv, some pp => NatInf.fin (pp - yv).natAbs
        | _, _ => NatInf.inf })

def gpKey (p : GPick) : NatInf × NatInf := (p.diff, p.potw_diff)

/-- Strict lexicographic order on the (GOTW diff, POTW diff) sort keys. -/
def keyLt (a b : NatInf × NatInf) : Bool :=
  NatInf.ltB a.1 b.1 || (a.1 = b.1 && NatInf.ltB a.2 b.2)

/-- The comparator `(a.diff - b.diff) || (a.potw_diff - b.potw_diff)` as a
total boolean order: `a` may come before `b` unless `b` is strictly
smaller.  (`Infinity - Infinity` is `NaN`, which is falsy, so equal-or-both-
infinite diffs fall through to the next component, and a NaN comparator
result counts as equal — exactly lexicographic comparison with equal
infinities.) -/
def gpLe (a b : GPick) : Bool := !(keyLt (gpKey b) (gpKey a))

/-- The rank-assignment loop: walk the sorted list; on a key change the
rank jumps to `index + 1`, on equal keys the previous rank is reused. -/
def ranksGo (prevKey : NatInf × NatInf) (rank i : Nat) :
    List GPick → List (String × Nat)
  | [] => []
  | p :: rest =>
    let r := if gpKey p = prevKey then rank else i + 1
    (p.first_name, r) :: ranksGo (gpKey p) r (i + 1) rest

/-- Object `gotwRanksByName` built from the sorted pick list (1-based ranks). -/
def gotwRanksByName (sorted : List GPick) : List (String × Nat) :=
  match sorted with
  | [] => []
  | p :: rest => (p.first_name, 1) :: ranksGo (gpKey p) 1 1 rest

/-- JavaScript object lookup where later assignments win. -/
def objGet (l : List (String × Nat)) (k : String) : Option Nat :=
  (l.reverse.find? (fun e => decide (e.1 = k))).map (fun e => e.2)

/-- Flag `isCorrectPick`: both scores present and unequal, and the picked team
is the winner. -/
def isCorrectPick (r : PubRow) : Bool :=
  match r.home_score, r.away_score with
  | some hs, some aw =>
    if hs = aw then false
    else decide (r.team = (if hs > aw then r.home_team else r.away_team))
  | _, _ => false

/-- Flag `isFavorite`: `r.favorite ? (r.team === r.favorite) : null`. -/
def isFavoriteOf (r : PubRow) : Option Bool :=
  match favOrNull r.favorite with
  | some f => some (decide (r.team = f))
  | none => none

/-- Points `basePickPoints`: 0 unless the pick is correct; 1 for a correct
favorite; 2 otherwise (correct underdog, or no favorite recorded). -/
def basePickPoints (r : PubRow) : Nat :=
  if isCorrectPick r then (if isFavoriteOf r = some true then 1 else 2) else 0

/-- GOTW points from the 1-based rank: 3/2/1 for ranks 1/2/3. -/
def gotwAwardOfRank (rank : Option Nat) : Nat :=
  if rank = some 1 then 3
  else if rank = some 2 then 2
  else if rank = some 3 then 1
  else 0

def potwExactFlag (potwYards : Option Int) (r : PubRow) : Bool :=
  match potwYards, r.potw_prediction with
  | some yv, some pp => decide (pp = yv)
  | _, _ => false

/-- Function `weekMultiplier` of routes/picks.js: weeks 13 and 17 double. -/
def weekMultiplier (w : Int) : Nat := if w = 13 ∨ w = 17 then 2 else 1

/-- Total points of one public row:
`mult * (basePickPoints + gotwPoints + (potwExact ? 3 : 0))`. -/
def pubRowPoints (mult : Nat) (ranks : List (String × Nat))
    (potwYards : Option Int) (r : PubRow) : Nat :=
  mult * (basePickPoints r + gotwAwardOfRank (objGet ranks r.first_name) +
    (if potwExactFlag potwYards r then 3 else 0))

/-- The whole public-picks scoring path: join rows, derive the GOTW actual
total and POTW yards, rank, and score each row. -/
def publicPicksPoints (w : Int) (games : List GameRow)
    (gotwRow? : Option GotwRow) (potwRow? : Option PotwRow)
    (picks : List PickRow) : List (String × Nat) :=
  let rows := mkPubRows w games picks
  let actual? := pubGotwActual rows gotwRow?
  let potwYards := potwRow?.bind (fun r => r.player_total_yards)
  let ranks := match actual? with
    | some act => gotwRanksByName (sortLe gpLe (mkGPicks rows act potwYards))
    | none => []
  rows.map (fun r => (r.first_name, pubRowPoints (weekMultiplier w) ranks
    potwYards r))

/-! ### Claim C1: GOTW ranking semantics. -/

def countLt (l : List GPick) (k : NatInf × NatInf) : Nat :=
  l.countP (fun q => keyLt (gpKey q) k)

/-- The spec's GOTW ranking scenario: actual total 45; Alice predicts 45,
Bob 50, Carol 40, Dave 30; no POTW answer, no submission timestamps. -/
def c1Picks : List PickRow :=
  [ ⟨1, 1, "Alpha", some 45, none, none, "alice"⟩,
    ⟨2, 1, "Alpha", some 50, none, none, "bob"⟩,
    ⟨3, 1, "Alpha", some 40, none, none, "carol"⟩,
    ⟨4, 1, "Alpha", some 30, none, none, "dave"⟩ ]

def c1Gotw : List GotwRow := [⟨1, "Alpha", "Beta", some 45⟩]

def c1Games : List GameRow := [⟨1, "Alpha", "Beta", some 25, some 20, none⟩]

/-- The same predictions with submission instants (Carol earlier than
Bob), to exercise the weekly table's submission-time tiebreak. -/
def c1PicksTie : List PickRow :=
  [ ⟨1, 1, "Alpha", some 45, none, some 100, "alice"⟩,
    ⟨2, 1, "Alpha", some 50, none, some 200, "bob"⟩,
    ⟨3, 1, "Alpha", some 40, none, some 150, "carol"⟩ ]

def c1SortedDemo : List GPick :=
  [ ⟨"alice", NatInf.fin 0, NatInf.inf⟩, ⟨"bob", NatInf.fin 5, NatInf.inf⟩,
    ⟨"carol", NatInf.fin 5, NatInf.inf⟩, ⟨"dave", NatInf.fin 15, NatInf.inf⟩ ]

def c5Games : List GameRow := [⟨2, "Alpha", "Beta", some 20, some 10, none⟩]

def c5Gotw : GotwRow := ⟨2, "Alpha", "Beta", some 45⟩

def c5Picks : List PickRow := [⟨1, 2, "Alpha", some 40, none, none, "alice"⟩]

/-! ### Claim C4: double-points weeks scale the entire weekly total. -/

def scaleRow (f : Nat) (r : URow) : URow :=
  { r with base_points := f * r.base_points, gotw_points := f * r.gotw_points,
           potw_points := f * r.potw_points }

theorem toLowerAscii_fixed {c : Char} (h : isLowerAlnum c = true) :
    toLowerAscii c = c := by
  unfold toLowerAscii
  unfold isLowerAlnum at h
  simp only [Bool.or_eq_true, Bool.and_eq_true, decide_eq_true_eq] at h
  rw [if_neg]
  omega

theorem slug_data_lower (s : String) :
    ∀ c ∈ (slug s).data, isLowerAlnum c = true := by
  intro c hc
  unfold slug at hc
  simp only at hc
  exact List.of_mem_filter hc

theorem slug_fixed {s : String} (h : ∀ c ∈ s.data, isLowerAlnum c = true) :
    slug s = s := by
  cases s with
  | mk l =>
    unfold slug
    simp only
    apply congrArg String.mk
    have hmap : l.map toLowerAscii = l := by
      have : l.map toLowerAscii = l.map id :=
        List.map_congr_left (fun a ha => toLowerAscii_fixed (h a ha))
      simpa using this
    rw [hmap]
    exact List.filter_eq_self.mpr h

theorem slug_idem (s : String) : slug (slug s) = slug s :=
  slug_fixed (slug_data_lower s)

/-! ### Idempotence of both canonicalizers (claim C8). -/

theorem lookupStr_mem {k v : String} :
    ∀ {l : List (String × String)}, lookupStr k l = some v → (k, v) ∈ l := by
  intro l
  induction l with
  | nil => intro h; simp [lookupStr] at h
  | cons hd tl ih =>
    intro h
    match hd with
    | (a, w) =>
      by_cases hk : k = a
      · subst hk
        simp [lookupStr] at h
        subst h
        exact List.mem_cons_self _ _
      · simp [lookupStr, hk] at h
        exact List.mem_cons_of_mem _ (ih h)

theorem canonMapSync_vals :
    ∀ p ∈ canonMapSync,
      slug p.2 = p.2 ∧ lookupStr p.2 canonMapSync = some p.2 := by decide

theorem canonicalTeam_idem (x : String) :
    canonicalTeam (canonicalTeam x) = canonicalTeam x := by
  unfold canonicalTeam
  cases h : lookupStr (slug x) canonMapSync with
  | none =>
    simp only [h, Option.getD_none]
    rw [slug_idem, h]
    rfl
  | some v =>
    simp only [h, Option.getD_some]
    obtain ⟨hslug, hlook⟩ := canonMapSync_vals _ (lookupStr_mem h)
    simp only at hslug hlook
    rw [hslug, hlook]
    rfl

theorem replLook_eq_self {p r x : String} {rests : List String}
    (h : ∀ t ∈ rests, x ≠ p ++ t) : replLook p rests r x = x := by
  unfold replLook
  cases hf : rests.find? (fun t => decide (x = p ++ t)) with
  | none => rfl
  | some t =>
    exfalso
    have hmem := List.mem_of_find?_eq_some hf
    have hpred := List.find?_some hf
    simp only [decide_eq_true_eq] at hpred
    exact h t hmem hpred

theorem replLook_one {p t1 r x : String} (h : x ≠ p ++ t1) :
    replLook p [t1] r x = x := by
  apply replLook_eq_self
  intro t ht
  simp only [List.mem_singleton] at ht
  subst ht
  exact h

theorem replLook_two {p t1 t2 r x : String} (ha : x ≠ p ++ t1)
    (hb : x ≠ p ++ t2) : replLook p [t1, t2] r x = x := by
  apply replLook_eq_self
  intro t ht
  simp only [List.mem_cons, List.mem_singleton, List.not_mem_nil,
    or_false] at ht
  rcases ht with rfl | rfl
  · exact ha
  · exact hb

theorem rewriteChain_eq_self {y : String} (h : y ∉ rewriteDomain) :
    rewriteChain y = y := by
  simp only [rewriteDomain, List.mem_cons, List.not_mem_nil, or_false,
    not_or] at h
  obtain ⟨h1, h2, h3, h4, h5, h6, h7, h8, h9, h10, h11, h12, h13, h14, h15,
    h16⟩ := h
  unfold rewriteChain
  dsimp only
  rw [replLook_two (fun hc => h1 (hc.trans (by decide)))
        (fun hc => h2 (hc.trans (by decide))),
      replLook_two (fun hc => h3 (hc.trans (by decide)))
        (fun hc => h4 (hc.trans (by decide))),
      replLook_one (fun hc => h5 (hc.trans (by decide))),
      replLook_one (fun hc => h6 (hc.trans (by decide))),
      replLook_one (fun hc => h7 (hc.trans (by decide))),
      replLook_one (fun hc => h8 (hc.trans (by decide))),
      replLook_two (fun hc => h9 (hc.trans (by decide)))
        (fun hc => h10 (hc.trans (by decide))),
      replLook_one (fun hc => h11 (hc.trans (by decide))),
      replLook_one (fun hc => h12 (hc.trans (by decide))),
      replLook_one (fun hc => h13 (hc.trans (by decide))),
      replLook_two (fun hc => h14 (hc.trans (by decide)))
        (fun hc => h15 (hc.trans (by decide))),
      replLook_one (fun hc => h16 (hc.trans (by decide)))]

theorem nicknameToCity_vals :
    ∀ p ∈ nicknameToCity, canonicalSlug p.2 = p.2 := by decide

set_option maxHeartbeats 2000000 in
theorem canonicalSlug_idem (x : String) :
    canonicalSlug (canonicalSlug x) = canonicalSlug x := by
  by_cases hD : slug x ∈ rewriteDomain
  · show canonicalSlugCore (slug (canonicalSlugCore (slug x))) =
      canonicalSlugCore (slug x)
    revert hD
    generalize slug x = y
    intro hD
    simp only [rewriteDomain, List.mem_cons, List.not_mem_nil,
      or_false] at hD
    rcases hD with rfl | rfl | rfl | rfl | rfl | rfl | rfl | rfl | rfl |
      rfl | rfl | rfl | rfl | rfl | rfl | rfl <;> decide
  · have hchain := rewriteChain_eq_self hD
    have hcore : canonicalSlugCore (slug x) =
        (lookupStr (slug x) nicknameToCity).getD (slug x) := by
      unfold canonicalSlugCore
      rw [hchain]
    show canonicalSlug (canonicalSlugCore (slug x)) = canonicalSlugCore (slug x)
    cases hl : lookupStr (slug x) nicknameToCity with
    | some v =>
      rw [hcore, hl, Option.getD_some]
      exact nicknameToCity_vals (slug x, v) (lookupStr_mem hl)
    | none =>
      rw [hcore, hl, Option.getD_none]
      show canonicalSlugCore (slug (slug x)) = slug x
      rw [slug_idem, hcore, hl, Option.getD_none]

/-- Claim C8: team-name canonicalization is idempotent: for every input
string `x`, `canonicalize (canonicalize x) = canonicalize x`, for both
canonicalizers in the repository (`canonicalSlug` of
`scripts/shiftKickoffsByDrift.js` and `canonicalTeam` of
`scripts/syncKickoffsFromSportsdata.js`); in particular this holds for every
spelling in their fixed 32-team lookup tables. -/
theorem C8_canonicalize_idempotent (x : String) :
    canonicalSlug (canonicalSlug x) = canonicalSlug x ∧
    canonicalTeam (canonicalTeam x) = canonicalTeam x :=
  ⟨canonicalSlug_idem x, canonicalTeam_idem x⟩

/-- Claim C9, counterexample: the claim asserts
`canonicalize "SF" = canonicalize "San Francisco 49ers"`, but both
canonicalizers map the bare abbreviation `"SF"` to the plain slug `"sf"`,
not to `"sanfrancisco49ers"`: `canonicalSlug` only expands `sf` when the
nickname `49ers` follows it in the same string, and `canonicalTeam` has no
bare `"sf"` key in its table. -/
theorem C9_counterexample :
    canonicalSlug "SF" = "sf" ∧
    canonicalSlug "San Francisco 49ers" = "sanfrancisco49ers" ∧
    canonicalSlug "SF" ≠ canonicalSlug "San Francisco 49ers" ∧
    canonicalTeam "SF" = "sf" ∧
    canonicalTeam "San Francisco 49ers" = "sanfrancisco49ers" ∧
    canonicalTeam "SF" ≠ canonicalTeam "San Francisco 49ers" := by
  refine ⟨by decide, by decide, by decide, by decide, by decide, by decide⟩

/-- Claim C9, amended: the full canonical name and the bare nickname map to
the same canonical slug (`canonicalize "San Francisco 49ers" =
canonicalize "49ers" = "sanfrancisco49ers"`) in both canonicalizers, and the
combined abbreviation-plus-nickname form `"SF 49ers"` also expands in
`canonicalSlug`; the bare city abbreviation `"SF"`, however, is left as the
plain slug `"sf"`. -/
theorem C9_abbreviation_expansion :
    canonicalSlug "San Francisco 49ers" = "sanfrancisco49ers" ∧
    canonicalSlug "49ers" = "sanfrancisco49ers" ∧
    canonicalTeam "San Francisco 49ers" = "sanfrancisco49ers" ∧
    canonicalTeam "49ers" = "sanfrancisco49ers" ∧
    canonicalTeam "Niners" = "sanfrancisco49ers" ∧
    canonicalSlug "SF 49ers" = "sanfrancisco49ers" ∧
    canonicalSlug "SF" = "sf" ∧
    canonicalTeam "SF" = "sf" := by
  refine ⟨by decide, by decide, by decide, by decide, by decide, by decide,
    by decide, by decide⟩

/-! ### Calendar lemmas and claim C2. -/

theorem epochDays_day (y m d : Int) :
    epochDays y m d = epochDays y m 1 + (d - 1) := by
  unfold epochDays
  by_cases h : m ≤ 2 <;> simp only [h, if_true, if_false] <;> ring

theorem marchSunday (y : Int) :
    dayOfWeek y 3 (firstSundayInMarch y) = 0 ∧
    1 ≤ firstSundayInMarch y ∧ firstSundayInMarch y ≤ 7 := by
  have hlin := epochDays_day y 3 (firstSundayInMarch y)
  have hmod : 0 ≤ (epochDays y 3 1 + 4) % 7 ∧ (epochDays y 3 1 + 4) % 7 < 7 := by
    constructor
    · exact Int.emod_nonneg _ (by norm_num)
    · exact Int.emod_lt_of_pos _ (by norm_num)
  unfold firstSundayInMarch at hlin ⊢
  unfold dayOfWeek at hlin ⊢
  by_cases h : (epochDays y 3 1 + 4) % 7 = 0
  · simp only [h, if_true, if_false, reduceIte] at hlin ⊢
    simp
  · simp only [h, if_true, if_false, reduceIte] at hlin ⊢
    omega

theorem novSunday (y : Int) :
    dayOfWeek y 11 (firstSundayInNov y) = 0 ∧
    1 ≤ firstSundayInNov y ∧ firstSundayInNov y ≤ 7 := by
  have hlin := epochDays_day y 11 (firstSundayInNov y)
  have hmod : 0 ≤ (epochDays y 11 1 + 4) % 7 ∧ (epochDays y 11 1 + 4) % 7 < 7 := by
    constructor
    · exact Int.emod_nonneg _ (by norm_num)
    · exact Int.emod_lt_of_pos _ (by norm_num)
  unfold firstSundayInNov at hlin ⊢
  unfold dayOfWeek at hlin ⊢
  by_cases h : (epochDays y 11 1 + 4) % 7 = 0
  · simp only [h, if_true, if_false, reduceIte] at hlin ⊢
    simp
  · simp only [h, if_true, if_false, reduceIte] at hlin ⊢
    omega

theorem secondMarchSunday (y : Int) :
    dayOfWeek y 3 (secondSundayInMarch y) = 0 ∧
    8 ≤ secondSundayInMarch y ∧ secondSundayInMarch y ≤ 14 := by
  obtain ⟨hs, hlo, hhi⟩ := marchSunday y
  have hlin1 := epochDays_day y 3 (firstSundayInMarch y)
  have hlin2 := epochDays_day y 3 (secondSundayInMarch y)
  unfold secondSundayInMarch at hlin2 ⊢
  unfold dayOfWeek at hs ⊢
  omega

/-- Claim C2: kickoff timestamp normalization.  Raw strings with an explicit
offset or `Z` suffix are parsed directly as that instant; naive strings are
interpreted as US Eastern wall-clock time and shifted to UTC by +4 h when
the per-year computed DST window (second Sunday of March through first
Sunday of November) contains the civil date and +5 h otherwise; in
particular naive `2025-11-09T13:00:00` maps to `2025-11-09T18:00:00Z` and
naive `2025-09-07T13:00:00` maps to `2025-09-07T17:00:00Z`. -/
theorem C2_kickoff_timestamp_normalization :
    (∀ s ms, jsParseExplicitMs s = some ms → hasExplicitTz s = true →
        getApiKickoffUtc (some s) none = some ms) ∧
    (∀ f : CivilTime, 1 ≤ f.month → f.month ≤ 12 →
        easternFieldsToMs f = civilMs f +
          (if isUsDstInEffect f.year f.month f.day then 4 else 5) * 3600000) ∧
    (∀ y : Int,
        dayOfWeek y 3 (secondSundayInMarch y) = 0 ∧
        8 ≤ secondSundayInMarch y ∧ secondSundayInMarch y ≤ 14 ∧
        dayOfWeek y 11 (firstSundayInNov y) = 0 ∧
        1 ≤ firstSundayInNov y ∧ firstSundayInNov y ≤ 7) ∧
    getApiKickoffUtc (some "2025-11-09T13:00:00") none =
      some (utcMs 2025 11 9 18 0 0) ∧
    getApiKickoffUtc (some "2025-09-07T13:00:00") none =
      some (utcMs 2025 9 7 17 0 0) ∧
    getApiKickoffUtc (some "2025-11-07T01:15:00Z") none =
      some (utcMs 2025 11 7 1 15 0) ∧
    getApiKickoffUtc (some "2025-11-07T01:15:00-05:00") none =
      some (utcMs 2025 11 7 6 15 0) := by
  refine ⟨?_, ?_, ?_, by decide, by decide, by decide, by decide⟩
  · intro s ms hp hz
    have hne : ¬ s = "" := by
      intro he
      subst he
      simp [hasExplicitTz, tzOffsetSuffix] at hz
    unfold getApiKickoffUtc
    simp only [hne, if_false, reduceIte, hz, if_true, hp]
  · intro f h1 h2
    unfold easternFieldsToMs civilMs
    by_cases hd : isUsDstInEffect f.year f.month f.day = true <;>
      simp only [hd, if_true, if_false, Bool.false_eq_true, reduceIte] <;> ring
  · intro y
    obtain ⟨ha, hb, hc⟩ := secondMarchSunday y
    obtain ⟨hd, he, hf⟩ := novSunday y
    exact ⟨ha, hb, hc, hd, he, hf⟩

/-- Witness for claim C2: the hypothesis-bearing parts instantiated at
concrete inputs. -/
theorem C2_kickoff_timestamp_normalization_witness :
    getApiKickoffUtc (some "2025-11-07T01:15:00Z") none =
      some 1762478100000 ∧
    easternFieldsToMs ⟨2025, 9, 7, 13, 0, 0⟩ = civilMs ⟨2025, 9, 7, 13, 0, 0⟩ +
      (if isUsDstInEffect 2025 9 7 then 4 else 5) * 3600000 ∧
    dayOfWeek 2025 3 (secondSundayInMarch 2025) = 0 := by
  obtain ⟨h1, h2, h3, _⟩ := C2_kickoff_timestamp_normalization
  exact ⟨h1 "2025-11-07T01:15:00Z" 1762478100000 (by decide) (by decide),
    h2 ⟨2025, 9, 7, 13, 0, 0⟩ (by decide) (by decide), (h3 2025).1⟩

/-! ### Claims C6 and C7: update gating and frame conditions. -/

theorem syncRowAction_id {sched : List (String × Int)} {g : DbGame}
    {p : Nat × Int} (h : syncRowAction sched g = some p) : p.1 = g.id := by
  unfold syncRowAction at h
  split at h
  · simp at h
  · split at h
    · simp at h
    · split at h
      · injection h with h2
        subst h2
        rfl
      · simp at h

theorem shiftRowAction_id {odds : List (String × Int)} {threshMin : Int}
    {g : DbGame} {p : Nat × Int} (h : shiftRowAction odds threshMin g = some p) :
    p.1 = g.id := by
  unfold shiftRowAction at h
  split at h
  · simp at h
  · split at h
    · simp at h
    · split at h
      · injection h with h2
        subst h2
        rfl
      · simp at h

/-- Claim C6, counterexample: the claim says a missing stored kickoff is
treated as infinite delta so the source value is always set, but
`syncKickoffsFromSportsdata.js` selects rows with
`WHERE kickoff IS NOT NULL`, so a game whose stored kickoff is NULL is
never considered and never set, even with a resolvable source kickoff (the
part_000 reconciler on the same data does set it).  In addition the named
script's gate rounds the delta to whole seconds before comparing, so a
delta of 59.5 s (59500 ms) is applied even though it is below the 60 s
threshold. -/
theorem C6_counterexample :
    syncUpdates [⟨1, 5, "Buffalo Bills", "Miami Dolphins", none⟩] 1
      [(matchKey "Buffalo Bills" "Miami Dolphins", 1757264400000)] = [] ∧
    p0Updates [⟨1, 5, "Buffalo Bills", "Miami Dolphins", none⟩]
      [((5, normalizeTeamName "Miami Dolphins",
          normalizeTeamName "Buffalo Bills"),
        (some "2025-09-07T13:00:00", none))] = [(1, 1757264400000)] ∧
    syncShouldUpdate 59500 = true := by
  refine ⟨by decide, by decide, by decide⟩

/-- Claim C6, amended: the part_000 reconciler always sets a missing stored
kickoff (infinite-delta behaviour) and otherwise overwrites exactly when
the delta strictly exceeds 60 s; the named `syncKickoffsFromSportsdata.js`
script instead never selects rows with a missing stored kickoff, and
overwrites exactly when the delta rounded to whole seconds is at least 60
(so deltas from 59.5 s up are applied); in particular a 59 s delta is not
applied and a 61 s delta is applied in both. -/
theorem C6_threshold_gating :
    (∀ rows minWeek (g : DbGame), g ∈ getDbGamesFilter rows minWeek →
        g.kickoff ≠ none) ∧
    (∀ d : Int, syncShouldUpdate d = true ↔ (59500 ≤ d ∨ d ≤ -59501)) ∧
    (∀ d : Int, p0ShouldUpdate d = true ↔ (60000 < d ∨ d < -60000)) ∧
    (syncShouldUpdate 59000 = false ∧ syncShouldUpdate 61000 = true ∧
     p0ShouldUpdate 59000 = false ∧ p0ShouldUpdate 61000 = true ∧
     p0ShouldUpdate 60000 = false) ∧
    (∀ sched rows (g : DbGame) dt dtUtc apiTs, g ∈ rows → (1 : Int) ≤ g.week →
        g.kickoff = none →
        lookupBy (g.week, normalizeTeamName g.away_team,
          normalizeTeamName g.home_team) sched = some (dt, dtUtc) →
        getApiKickoffUtc dt dtUtc = some apiTs →
        (g.id, apiTs) ∈ p0Updates rows sched) ∧
    (∀ sched (g : DbGame) dbTs apiTs, g.kickoff = some dbTs →
        lookupBy (matchKey g.home_team g.away_team) sched = some apiTs →
        (syncRowAction sched g = some (g.id, apiTs) ↔
          syncShouldUpdate (apiTs - dbTs) = true)) := by
  refine ⟨?_, ?_, ?_, ⟨by decide, by decide, by decide, by decide, by decide⟩,
    ?_, ?_⟩
  · intro rows minWeek g hg
    unfold getDbGamesFilter at hg
    rw [List.mem_filter] at hg
    obtain ⟨-, hp⟩ := hg
    simp only [Bool.and_eq_true, Option.isSome_iff_exists] at hp
    obtain ⟨⟨t, ht⟩, -⟩ := hp
    simp [ht]
  · intro d
    unfold syncShouldUpdate jsRoundSec
    rw [Int.fdiv_eq_ediv _ (by norm_num)]
    simp only [decide_eq_true_eq]
    omega
  · intro d
    unfold p0ShouldUpdate
    simp only [decide_eq_true_eq]
    omega
  · intro sched rows g dt dtUtc apiTs hg hw hk hl ha
    unfold p0Updates
    rw [List.mem_filterMap]
    refine ⟨g, ?_, ?_⟩
    · rw [List.mem_filter]
      exact ⟨hg, by simpa using hw⟩
    · unfold p0RowAction
      simp only [hl, ha, hk]
  · intro sched g dbTs apiTs hk hl
    unfold syncRowAction
    rw [hl, hk]
    by_cases hc : syncShouldUpdate (apiTs - dbTs) = true
    · simp [hc]
    · simp [hc]

/-- Witness for claim C6: its hypothesis-bearing parts instantiated at
concrete inputs. -/
theorem C6_threshold_gating_witness :
    ((⟨1, 5, "a", "b", some 7⟩ : DbGame).kickoff ≠ none) ∧
    syncShouldUpdate 59500 = true ∧
    p0ShouldUpdate 61000 = true ∧
    (1, 1757264400000) ∈ p0Updates
      [⟨1, 5, "Buffalo Bills", "Miami Dolphins", none⟩]
      [((5, normalizeTeamName "Miami Dolphins",
          normalizeTeamName "Buffalo Bills"),
        (some "2025-09-07T13:00:00", none))] ∧
    (syncRowAction [(matchKey "Buffalo Bills" "Miami Dolphins", 100000)]
        ⟨3, 5, "Buffalo Bills", "Miami Dolphins", some 1000⟩ =
      some (3, 100000)) := by
  obtain ⟨h1, h2, h3, -, h5, h6⟩ := C6_threshold_gating
  refine ⟨h1 [⟨1, 5, "a", "b", some 7⟩] 1 ⟨1, 5, "a", "b", some 7⟩ (by decide),
    (h2 59500).mpr (by norm_num), (h3 61000).mpr (by norm_num),
    h5 _ _ ⟨1, 5, "Buffalo Bills", "Miami Dolphins", none⟩
      (some "2025-09-07T13:00:00") none 1757264400000
      (by decide) (by norm_num) rfl (by decide) (by decide),
    (h6 _ ⟨3, 5, "Buffalo Bills", "Miami Dolphins", some 1000⟩ 1000 100000
      rfl (by decide)).mpr (by decide)⟩

/-- Claim C7, counterexample: neither reconciliation script ever consults
the clock, so a game whose stored kickoff instant has long passed is still
updated when its source delta clears the threshold — here a game with
stored kickoff at epoch-ms 1000 (1970-01-01T00:00:01Z, passed at any
realistic run time, e.g. 2025-10-21 = 1761000000000) is rewritten by both
`shiftKickoffsByDrift.js` and `syncKickoffsFromSportsdata.js`. -/
theorem C7_counterexample :
    shiftUpdates [⟨7, 12, "Buffalo Bills", "Miami Dolphins", some 1000⟩] 10 60
      [(matchupKey "Buffalo Bills" "Miami Dolphins", 7201000)] =
      [(7, 7201000)] ∧
    syncUpdates [⟨7, 12, "Buffalo Bills", "Miami Dolphins", some 1000⟩] 1
      [(matchKey "Buffalo Bills" "Miami Dolphins", 101000)] = [(7, 101000)] ∧
    (1000 : Int) < 1761000000000 := by
  refine ⟨by decide, by decide, by norm_num⟩

/-- Claim C7, amended: both reconciliation scripts enforce the minimum-week
floor — every row they update comes from the selected row set, whose weeks
are at or above the floor (and, for the named sync script, whose stored
kickoff is non-NULL) — but neither protects games whose stored kickoff has
already passed: no clock is consulted, and such games are updated like any
other when matched and over threshold. -/
theorem C7_week_floor_frame :
    (∀ rows minWeek threshMin odds (p : Nat × Int),
        p ∈ shiftUpdates rows minWeek threshMin odds →
        ∃ g : DbGame, g ∈ rows ∧ g.id = p.1 ∧ minWeek ≤ g.week) ∧
    (∀ rows minWeek sched (p : Nat × Int), p ∈ syncUpdates rows minWeek sched →
        ∃ g : DbGame, g ∈ rows ∧ g.id = p.1 ∧ minWeek ≤ g.week ∧
          g.kickoff ≠ none) := by
  constructor
  · intro rows minWeek threshMin odds p hp
    unfold shiftUpdates at hp
    rw [List.mem_filterMap] at hp
    obtain ⟨g, hg, ha⟩ := hp
    rw [List.mem_filter] at hg
    obtain ⟨hmem, hwk⟩ := hg
    exact ⟨g, hmem, (shiftRowAction_id ha).symm, by simpa using hwk⟩
  · intro rows minWeek sched p hp
    unfold syncUpdates getDbGamesFilter at hp
    rw [List.mem_filterMap] at hp
    obtain ⟨g, hg, ha⟩ := hp
    rw [List.mem_filter] at hg
    obtain ⟨hmem, hcond⟩ := hg
    simp only [Bool.and_eq_true, Option.isSome_iff_exists, decide_eq_true_eq]
      at hcond
    obtain ⟨⟨t, ht⟩, hwk⟩ := hcond
    exact ⟨g, hmem, (syncRowAction_id ha).symm, hwk, by simp [ht]⟩

/-- Witness for claim C7: instantiated at a concrete one-row run. -/
theorem C7_week_floor_frame_witness :
    ∃ g : DbGame,
      g ∈ [(⟨7, 12, "Buffalo Bills", "Miami Dolphins", some 1000⟩ : DbGame)] ∧
      g.id = 7 ∧ (10 : Int) ≤ g.week := by
  obtain ⟨h1, -⟩ := C7_week_floor_frame
  exact h1 [⟨7, 12, "Buffalo Bills", "Miami Dolphins", some 1000⟩] 10 60
    [(matchupKey "Buffalo Bills" "Miami Dolphins", 7201000)] (7, 7201000)
    (by decide)

theorem NatInf.ltB_irrefl (a : NatInf) : NatInf.ltB a a = false := by
  cases a <;> simp [NatInf.ltB]

theorem NatInf.ltB_eq_of_not (a b : NatInf) (h1 : NatInf.ltB a b = false)
    (h2 : NatInf.ltB b a = false) : a = b := by
  cases a <;> cases b <;> simp_all [NatInf.ltB] <;> omega

theorem keyLt_irrefl (k : NatInf × NatInf) : keyLt k k = false := by
  unfold keyLt
  simp [NatInf.ltB_irrefl]

theorem keyLt_eq_of_not {a b : NatInf × NatInf} (h1 : keyLt a b = false)
    (h2 : keyLt b a = false) : a = b := by
  unfold keyLt at h1 h2
  simp only [Bool.or_eq_false_iff, Bool.and_eq_false_iff] at h1 h2
  obtain ⟨h11, h12⟩ := h1
  obtain ⟨h21, h22⟩ := h2
  have hfst : a.1 = b.1 := NatInf.ltB_eq_of_not _ _ h11 h21
  have hsnd : a.2 = b.2 := by
    rcases h12 with h | h
    · simp [hfst] at h
    · rcases h22 with h' | h'
      · simp [hfst] at h'
      · exact NatInf.ltB_eq_of_not _ _ h h'
  exact Prod.ext hfst hsnd

theorem gpLe_iff {a b : GPick} :
    gpLe a b = true ↔ keyLt (gpKey b) (gpKey a) = false := by
  unfold gpLe
  simp [Bool.not_eq_true']

/-- Invariant of the rank-assignment loop on a sorted list: when the loop
has consumed `done ++ [prev]` and carries `rank = 1 + countLt L (gpKey
prev)` and `i = (done ++ [prev]).length`, it labels every remaining entry
`p` with `1 + countLt L (gpKey p)`. -/
theorem ranksGo_spec (rest : List GPick) :
    ∀ (done : List GPick) (prev : GPick),
    List.Pairwise (fun a b => gpLe a b = true) (done ++ prev :: rest) →
    ranksGo (gpKey prev)
        (1 + countLt (done ++ prev :: rest) (gpKey prev))
        (done.length + 1) rest =
      rest.map (fun p =>
        (p.first_name, 1 + countLt (done ++ prev :: rest) (gpKey p))) := by
  induction rest with
  | nil => intro done prev hp; rfl
  | cons p rest' ih =>
    intro done prev hp
    -- facts extracted from sortedness
    have hparts := (List.pairwise_append).mp hp
    obtain ⟨hpdone, hptail, hcross⟩ := hparts
    have hprev_tail := (List.pairwise_cons).mp hptail
    obtain ⟨hprevall, hptail2⟩ := hprev_tail
    have hp_tail := (List.pairwise_cons).mp hptail2
    obtain ⟨hpall, -⟩ := hp_tail
    -- prev ≤ p
    have hprevp : keyLt (gpKey p) (gpKey prev) = false :=
      gpLe_iff.mp (hprevall p (by simp))
    have ihx := ih (done ++ [prev]) p (by simpa using hp)
    rw [show (done ++ [prev]) ++ p :: rest' = done ++ prev :: p :: rest'
      by simp] at ihx
    simp only [List.length_append, List.length_singleton] at ihx
    unfold ranksGo
    simp only [List.map_cons, List.cons.injEq]
    by_cases hkey : gpKey p = gpKey prev
    · have hcnt : countLt (done ++ prev :: p :: rest') (gpKey p) =
          countLt (done ++ prev :: p :: rest') (gpKey prev) := by
        rw [hkey]
      rw [if_pos hkey]
      refine ⟨by rw [hcnt], ?_⟩
      rw [← hcnt]
      exact ihx
    · -- every element of done ++ [prev] is strictly below p's key
      have hstrict : ∀ q ∈ done ++ [prev],
          keyLt (gpKey q) (gpKey p) = true := by
        intro q hq
        rcases List.mem_append.mp hq with hqd | hqp
        · have hA : keyLt (gpKey p) (gpKey q) = false :=
            gpLe_iff.mp (hcross q hqd p (by simp))
          have hB : keyLt (gpKey prev) (gpKey q) = false :=
            gpLe_iff.mp (hcross q hqd prev (by simp))
          by_cases h1 : keyLt (gpKey q) (gpKey p) = true
          · exact h1
          · exfalso
            have h1f : keyLt (gpKey q) (gpKey p) = false := by
              simpa using h1
            have hqe : gpKey q = gpKey p := keyLt_eq_of_not h1f hA
            rw [hqe] at hB
            exact hkey (keyLt_eq_of_not hprevp hB)
        · have hqe : q = prev := by simpa using hqp
          subst hqe
          by_cases h1 : keyLt (gpKey q) (gpKey p) = true
          · exact h1
          · exfalso
            have h1f : keyLt (gpKey q) (gpKey p) = false := by
              simpa using h1
            exact hkey (keyLt_eq_of_not hprevp h1f)
      -- no element of p :: rest' is strictly below p's key
      have hnone : ∀ q ∈ p :: rest', keyLt (gpKey q) (gpKey p) = false := by
        intro q hq
        rcases List.mem_cons.mp hq with rfl | hq'
        · exact keyLt_irrefl _
        · exact gpLe_iff.mp (hpall q hq')
      have hcnt : countLt (done ++ prev :: p :: rest') (gpKey p) =
          done.length + 1 := by
        unfold countLt
        rw [show done ++ prev :: p :: rest' =
          (done ++ [prev]) ++ p :: rest' by simp]
        rw [List.countP_append]
        have h1 : List.countP (fun q => keyLt (gpKey q) (gpKey p))
            (done ++ [prev]) = (done ++ [prev]).length :=
          List.countP_eq_length.mpr hstrict
        have h2 : List.countP (fun q => keyLt (gpKey q) (gpKey p))
            (p :: rest') = 0 := by
          rw [List.countP_eq_zero]
          intro a ha
          simp [hnone a ha]
        rw [h1, h2]
        simp
      rw [if_neg hkey]
      refine ⟨by rw [hcnt]; congr 1; omega, ?_⟩
      rw [show 1 + countLt (done ++ prev :: p :: rest') (gpKey p) =
        done.length + 1 + 1 by omega] at ihx
      exact ihx

/-- Classic competition-ranking law for the public route's rank loop: on a
list sorted by the GOTW comparator, every entry's assigned rank is one plus
the number of entries with a strictly smaller (diff, POTW diff) key — so
equal keys share a rank and the rank after a tie continues at
position + 1, not densely. -/
theorem gotwRanks_classic (l : List GPick)
    (hs : List.Pairwise (fun a b => gpLe a b = true) l) :
    gotwRanksByName l =
      l.map (fun p => (p.first_name, 1 + countLt l (gpKey p))) := by
  cases l with
  | nil => rfl
  | cons p rest =>
    have hall := (List.pairwise_cons).mp hs
    obtain ⟨hpall, -⟩ := hall
    have hzero : countLt (p :: rest) (gpKey p) = 0 := by
      unfold countLt
      rw [List.countP_eq_zero]
      intro a ha
      rcases List.mem_cons.mp ha with rfl | ha'
      · simp [keyLt_irrefl]
      · simp [gpLe_iff.mp (hpall a ha')]
    have hgo := ranksGo_spec rest [] p (by simpa using hs)
    simp only [List.nil_append, List.length_nil, Nat.zero_add] at hgo
    rw [show gotwRanksByName (p :: rest) =
      (p.first_name, 1) :: ranksGo (gpKey p) 1 1 rest from rfl]
    rw [List.map_cons]
    simp only [List.cons.injEq]
    refine ⟨by rw [hzero], ?_⟩
    rw [hzero] at hgo
    simpa using hgo

/-- Claim C1, counterexample: in `computeWeekTable` (routes/games.js) the
GOTW podium is `contenders.slice(0, 3)` with positional awards 3/2/1, so
participants with equal sort keys do NOT share an award: with actual total
45, Bob (prediction 50) and Carol (prediction 40) both have diff 5 and
identical POTW tiebreak keys, yet Bob is awarded 2 and Carol 1 (the tie is
broken by user id), where the claim requires both to share rank 2 and
receive 2 points. -/
theorem C1_counterexample :
    (mkContenders c1Picks (some 45) none).map
        (fun c => (c.user_id, c.diff, c.potwDiff)) =
      [(1, 0, NatInf.inf), (2, 5, NatInf.inf), (3, 5, NatInf.inf),
        (4, 15, NatInf.inf)] ∧
    userGotwPoints (computeWeekTable [] 1 [] c1Gotw [] c1Picks) 2 =
      some 2 ∧
    userGotwPoints (computeWeekTable [] 1 [] c1Gotw [] c1Picks) 3 =
      some 1 := by
  refine ⟨by decide, by decide, by decide⟩

/-- Claim C1, amended: the public picks route (routes/picks.js) implements
classic competition ranking — on the sorted list every participant's rank
is one plus the number of strictly closer (diff, POTW-diff) keys, so ties
share a rank and the next distinct rank continues at position + 1 — and
awards 3/2/1 to ranks 1/2/3; on the spec's scenario it yields
Alice rank 1 (3 pts), Bob and Carol rank 2 (2 pts each), Dave rank 4
(0 pts).  The weekly leaderboard table (`computeWeekTable`) instead fully
orders the GOTW submitters (ties broken by POTW diff, then earlier
submission, then user id) and awards 3/2/1 positionally to the first
three, with no shared awards. -/
theorem C1_gotw_ranking :
    (∀ l : List GPick, List.Pairwise (fun a b => gpLe a b = true) l →
        gotwRanksByName l =
          l.map (fun p => (p.first_name, 1 + countLt l (gpKey p)))) ∧
    gotwRanksByName
        (sortLe gpLe (mkGPicks (mkPubRows 1 c1Games c1Picks) 45 none)) =
      [("alice", 1), ("bob", 2), ("carol", 2), ("dave", 4)] ∧
    publicPicksPoints 1 c1Games (some ⟨1, "Alpha", "Beta", none⟩) none
        c1Picks =
      [("alice", 5), ("bob", 4), ("carol", 4), ("dave", 2)] ∧
    podiumOf (mkContenders c1PicksTie (some 45) none) =
      [(1, 3), (3, 2), (2, 1)] := by
  refine ⟨gotwRanks_classic, by decide, by decide, by decide⟩

/-- Witness for claim C1: the classic-ranking law instantiated on a
concrete sorted list. -/
theorem C1_gotw_ranking_witness :
    gotwRanksByName c1SortedDemo =
      c1SortedDemo.map (fun p => (p.first_name, 1 + countLt c1SortedDemo
        (gpKey p))) :=
  C1_gotw_ranking.1 c1SortedDemo (by decide)

/-! ### Claims C3 and C10: per-pick base scoring. -/

/-- Claim C3: a winner exists only when both final scores are present and
unequal; a correct pick earns 1 point when the picked team is the stored
pregame favorite and 2 otherwise; an incorrect pick earns 0.  Stated for
`winnerAndFavorite` (routes/games.js) and `basePickPoints`
(routes/picks.js). -/
theorem C3_base_scoring :
    (∀ g : GameRow, g.home_score = none ∨ g.away_score = none →
        (winnerAndFavorite (some g)).1 = none) ∧
    (∀ (g : GameRow) (hs aw : Int), g.home_score = some hs →
        g.away_score = some aw → hs = aw →
        (winnerAndFavorite (some g)).1 = none) ∧
    (∀ (g : GameRow) (hs aw : Int), g.home_score = some hs →
        g.away_score = some aw → hs > aw →
        (winnerAndFavorite (some g)).1 = some g.home_team) ∧
    (∀ (g : GameRow) (hs aw : Int), g.home_score = some hs →
        g.away_score = some aw → aw > hs →
        (winnerAndFavorite (some g)).1 = some g.away_team) ∧
    (∀ r : PubRow, r.home_score = none ∨ r.away_score = none →
        isCorrectPick r = false ∧ basePickPoints r = 0) ∧
    (∀ (r : PubRow) (hs aw : Int), r.home_score = some hs →
        r.away_score = some aw → hs = aw →
        isCorrectPick r = false ∧ basePickPoints r = 0) ∧
    (∀ r : PubRow, isCorrectPick r = true →
        favOrNull r.favorite = some r.team → basePickPoints r = 1) ∧
    (∀ r : PubRow, isCorrectPick r = true →
        favOrNull r.favorite ≠ some r.team → basePickPoints r = 2) ∧
    (∀ r : PubRow, isCorrectPick r = false → basePickPoints r = 0) := by
  refine ⟨?_, ?_, ?_, ?_, ?_, ?_, ?_, ?_, ?_⟩
  · intro g h
    show winnerOf g = none
    unfold winnerOf
    rcases h with h | h
    · rw [h]
    · rw [h]
      cases g.home_score <;> rfl
  · intro g hs aw hh ha he
    show winnerOf g = none
    unfold winnerOf
    rw [hh, ha]
    simp [he]
  · intro g hs aw hh ha hgt
    show winnerOf g = some g.home_team
    unfold winnerOf
    rw [hh, ha]
    simp only [if_pos hgt]
  · intro g hs aw hh ha hgt
    show winnerOf g = some g.away_team
    unfold winnerOf
    rw [hh, ha]
    have hne : ¬ hs > aw := by omega
    simp only [if_neg hne, if_pos hgt]
  · intro r h
    have hc : isCorrectPick r = false := by
      unfold isCorrectPick
      rcases h with h | h <;> rw [h] <;> cases r.home_score <;>
        cases r.away_score <;> simp_all
    exact ⟨hc, by unfold basePickPoints; rw [hc]; simp⟩
  · intro r hs aw hh ha he
    have hc : isCorrectPick r = false := by
      unfold isCorrectPick
      rw [hh, ha]
      simp [he]
    exact ⟨hc, by unfold basePickPoints; rw [hc]; simp⟩
  · intro r hc hf
    unfold basePickPoints
    rw [hc]
    have : isFavoriteOf r = some true := by
      unfold isFavoriteOf
      rw [hf]
      simp
    rw [this]
    simp
  · intro r hc hf
    unfold basePickPoints
    rw [hc]
    have : ¬ isFavoriteOf r = some true := by
      unfold isFavoriteOf
      cases hfv : favOrNull r.favorite with
      | none => simp
      | some f =>
        simp only [Option.some.injEq, decide_eq_true_eq]
        intro he
        exact hf (by rw [hfv, he])
    rw [if_neg this]
    simp
  · intro r hc
    unfold basePickPoints
    rw [hc]
    simp

/-- Witness for claim C3: the spec's scoring scenario — Bills (favorite)
beat Dolphins 27–20; a Bills pick earns 1 point, a Dolphins pick 0. -/
theorem C3_base_scoring_witness :
    basePickPoints ⟨"a", "Buffalo Bills", none, none, "Buffalo Bills",
      "Miami Dolphins", some 27, some 20, some "Buffalo Bills"⟩ = 1 ∧
    basePickPoints ⟨"b", "Miami Dolphins", none, none, "Buffalo Bills",
      "Miami Dolphins", some 27, some 20, some "Buffalo Bills"⟩ = 0 ∧
    (winnerAndFavorite (some ⟨1, "Buffalo Bills", "Miami Dolphins",
      some 27, some 27, some "Buffalo Bills"⟩)).1 = none := by
  obtain ⟨h1, h2, h3, h4, h5, h6, h7, h8, h9⟩ := C3_base_scoring
  refine ⟨h7 _ (by decide) (by decide), ?_, h2 ⟨1, "Buffalo Bills",
    "Miami Dolphins", some 27, some 27, some "Buffalo Bills"⟩ 27 27
    rfl rfl rfl⟩
  exact h9 _ (by decide)

/-- Claim C10: when the picked team wins but the stored favorite field is
NULL (or the empty string, which JavaScript treats as falsy), the scoring
engines award the underdog-equivalent 2 base points — never 1, and the
base credit is not withheld.  Stated for `basePickPoints` (routes/picks.js)
and for the base-points loop of `computeWeekTable` (routes/games.js). -/
theorem C10_no_favorite_default :
    (∀ r : PubRow, isCorrectPick r = true →
        r.favorite = none ∨ r.favorite = some "" → basePickPoints r = 2) ∧
    (∀ g : GameRow, g.favorite = none ∨ g.favorite = some "" →
        (winnerAndFavorite (some g)).2 = none) ∧
    (∀ (factor : Nat) (weekGames : List GameRow) (m : List URow)
        (p : PickRow) (g : GameRow),
        weekGames.find? (fun gm => decide (gm.home_team = p.team) ||
          decide (gm.away_team = p.team)) = some g →
        (winnerAndFavorite (some g)).1 = some p.team →
        (winnerAndFavorite (some g)).2 = none →
        baseStep factor weekGames m p =
          mapUser (ensureUser m p.user_id) p.user_id (fun r =>
            { r with base_points := r.base_points + 2 * factor,
                     correct_underdogs := r.correct_underdogs + 1 })) := by
  refine ⟨?_, ?_, ?_⟩
  · intro r hc hf
    have hfn : favOrNull r.favorite = none := by
      unfold favOrNull
      rcases hf with h | h <;> rw [h] <;> simp
    unfold basePickPoints
    rw [hc]
    have : isFavoriteOf r = none := by
      unfold isFavoriteOf
      rw [hfn]
    rw [this]
    simp
  · intro g hf
    show favOrNull g.favorite = none
    unfold favOrNull
    rcases hf with h | h <;> rw [h] <;> simp
  · intro factor weekGames m p g hfind hw hf
    unfold baseStep
    rw [hfind]
    dsimp only
    rw [hw, hf]
    simp

/-- Witness for claim C10: a concrete winning pick with no stored
favorite. -/
theorem C10_no_favorite_default_witness :
    basePickPoints ⟨"a", "Buffalo Bills", none, none, "Buffalo Bills",
      "Miami Dolphins", some 27, some 20, none⟩ = 2 ∧
    baseStep 1 [⟨1, "Buffalo Bills", "Miami Dolphins", some 27, some 20,
        none⟩] []
      ⟨9, 1, "Buffalo Bills", none, none, none, "a"⟩ =
      mapUser (ensureUser [] 9) 9 (fun r =>
        { r with base_points := r.base_points + 2 * 1,
                 correct_underdogs := r.correct_underdogs + 1 }) := by
  obtain ⟨h1, h2, h3⟩ := C10_no_favorite_default
  refine ⟨h1 _ (by decide) (Or.inl rfl), ?_⟩
  exact h3 1 _ [] ⟨9, 1, "Buffalo Bills", none, none, none, "a"⟩
    ⟨1, "Buffalo Bills", "Miami Dolphins", some 27, some 20, none⟩
    (by decide) (by decide) (by decide)

/-! ### Claim C5: GOTW actual-total derivation. -/

theorem mem_ensureUser {m : List URow} {u : Nat} {r : URow}
    (h : r ∈ ensureUser m u) : r ∈ m ∨ r = newURow u := by
  unfold ensureUser at h
  split at h
  · exact Or.inl h
  · rcases List.mem_append.mp h with h' | h'
    · exact Or.inl h'
    · exact Or.inr (by simpa using h')

theorem mem_mapUser {m : List URow} {u : Nat} {f : URow → URow} {r : URow}
    (h : r ∈ mapUser m u f) : (∃ r' ∈ m, r = f r') ∨ r ∈ m := by
  unfold mapUser at h
  rcases List.mem_map.mp h with ⟨r', hr', heq⟩
  by_cases hc : r'.user_id = u
  · rw [if_pos hc] at heq
    exact Or.inl ⟨r', hr', heq.symm⟩
  · rw [if_neg hc] at heq
    exact Or.inr (heq ▸ hr')

/-- The base-points loop step is either a bare `ensure` or an update that
touches only `base_points` and the favorite/underdog counters. -/
theorem baseStep_cases (factor : Nat) (G : List GameRow) (m : List URow)
    (p : PickRow) :
    baseStep factor G m p = ensureUser m p.user_id ∨
    ∃ upd : URow → URow,
      (∀ r, (upd r).gotw_points = r.gotw_points ∧
        (upd r).potw_points = r.potw_points ∧ (upd r).user_id = r.user_id) ∧
      baseStep factor G m p =
        mapUser (ensureUser m p.user_id) p.user_id upd := by
  unfold baseStep
  dsimp only
  split
  · split
    · split
      · split
        · refine Or.inr ⟨_, ?_, rfl⟩
          exact fun r => ⟨rfl, rfl, rfl⟩
        · refine Or.inr ⟨_, ?_, rfl⟩
          exact fun r => ⟨rfl, rfl, rfl⟩
      · refine Or.inr ⟨_, ?_, rfl⟩
        exact fun r => ⟨rfl, rfl, rfl⟩
    · exact Or.inl rfl
  · exact Or.inl rfl

theorem foldl_preserves {α : Type} (P : URow → Prop)
    (step : List URow → α → List URow)
    (hstep : ∀ m x r, (∀ r' ∈ m, P r') → r ∈ step m x → P r) :
    ∀ (l : List α) (m : List URow), (∀ r ∈ m, P r) →
      ∀ r ∈ l.foldl step m, P r := by
  intro l
  induction l with
  | nil => intro m hm; exact hm
  | cons x xs ih =>
    intro m hm
    exact ih (step m x) (fun r hr => hstep m x r hm hr)

theorem gotw_zero_baseStep (factor : Nat) (G : List GameRow)
    (m : List URow) (p : PickRow) (r : URow)
    (hm : ∀ r' ∈ m, r'.gotw_points = 0) (hr : r ∈ baseStep factor G m p) :
    r.gotw_points = 0 := by
  have hens : ∀ r' ∈ ensureUser m p.user_id, r'.gotw_points = 0 := by
    intro r' hr'
    rcases mem_ensureUser hr' with h | h
    · exact hm r' h
    · rw [h]; rfl
  rcases baseStep_cases factor G m p with h | ⟨upd, hupd, h⟩
  · rw [h] at hr
    exact hens r hr
  · rw [h] at hr
    rcases mem_mapUser hr with ⟨r', hr', heq⟩ | hmem
    · rw [heq, (hupd r').1]
      exact hens r' hr'
    · exact hens r hmem

theorem gotw_zero_potwStep (factor : Nat) (m : List URow) (a : Nat × Nat)
    (r : URow) (hm : ∀ r' ∈ m, r'.gotw_points = 0)
    (hr : r ∈ potwStep factor m a) : r.gotw_points = 0 := by
  unfold potwStep at hr
  rcases mem_mapUser hr with ⟨r', hr', heq⟩ | hmem
  · rw [heq]
    exact hm r' hr'
  · exact hm r hmem

/-- When no actual total is known for the week, the weekly table awards no
GOTW points to anyone. -/
theorem gotw_points_zero_of_no_actual (factor : Nat) (G : List GameRow)
    (picks : List PickRow) (po : Option Int) :
    ∀ r ∈ weekTableCore factor G picks none po, r.gotw_points = 0 := by
  intro r hr
  unfold weekTableCore at hr
  have hpod : podiumOf (mkContenders picks none po) = [] := rfl
  rw [hpod] at hr
  simp only [List.foldl_nil] at hr
  refine foldl_preserves (fun r => r.gotw_points = 0) (potwStep factor)
    (fun m x r hm hrx => gotw_zero_potwStep factor m x r hm hrx)
    (potwExactOf picks po) (picks.foldl (baseStep factor G) []) ?_ r hr
  refine foldl_preserves (fun r => r.gotw_points = 0) (baseStep factor G)
    (fun m x r hm hrx => gotw_zero_baseStep factor G m x r hm hrx)
    picks [] (by simp)

/-- Claim C5, counterexample: with an admin override of 45 recorded and the
featured game finishing 20–10, the leaderboard engine
(`getGotwActualTotals`) uses the override 45, but the public picks route's
`gotwActualTotal` uses the score sum 30 — it never consults the override —
so "the actual total used for GOTW bonus ranking" is not the override on
every path. -/
theorem C5_counterexample :
    gotwActualForWeek c5Games [c5Gotw] 2 = some 45 ∧
    pubGotwActual (mkPubRows 2 c5Games c5Picks) (some c5Gotw) = some 30 ∧
    (30 : Int) ≠ 45 := by
  refine ⟨by decide, by decide, by decide⟩

/-- Claim C5, amended: in the leaderboard engine (routes/games.js) the
actual total is the admin override when non-null, else the featured game's
final score sum when both scores are present, else null, and a null actual
awards no GOTW points; the public picks route (routes/picks.js) instead
derives its actual total solely from the featured matchup's final scores,
ignoring the admin override entirely. -/
theorem C5_gotw_actual_total :
    (∀ (games : List GameRow) (gotwRows : List GotwRow) (w : Int)
        (r : GotwRow) (v : Int),
        gotwRows.find? (fun x => decide (x.week = w)) = some r →
        r.game_total_points = some v →
        gotwActualForWeek games gotwRows w = some v) ∧
    (∀ (games : List GameRow) (gotwRows : List GotwRow) (w : Int)
        (r : GotwRow) (g : GameRow) (hs aw : Int),
        gotwRows.find? (fun x => decide (x.week = w)) = some r →
        r.game_total_points = none →
        (games.filter (fun g' => decide (g'.week = r.week))).find?
          (fun g' => decide (g'.home_team = r.home_team) &&
            decide (g'.away_team = r.away_team)) = some g →
        g.home_score = some hs → g.away_score = some aw →
        gotwActualForWeek games gotwRows w = some (hs + aw)) ∧
    (∀ (games : List GameRow) (gotwRows : List GotwRow) (w : Int)
        (r : GotwRow),
        gotwRows.find? (fun x => decide (x.week = w)) = some r →
        r.game_total_points = none →
        (games.filter (fun g' => decide (g'.week = r.week))).find?
          (fun g' => decide (g'.home_team = r.home_team) &&
            decide (g'.away_team = r.away_team)) = none →
        gotwActualForWeek games gotwRows w = none) ∧
    (∀ (games : List GameRow) (gotwRows : List GotwRow) (w : Int),
        gotwRows.find? (fun x => decide (x.week = w)) = none →
        gotwActualForWeek games gotwRows w = none) ∧
    (∀ (factor : Nat) (G : List GameRow) (picks : List PickRow)
        (po : Option Int), ∀ r ∈ weekTableCore factor G picks none po,
        r.gotw_points = 0) ∧
    (∀ (rows : List PubRow) (gr : GotwRow),
        pubGotwActual rows (some gr) =
          pubGotwActual rows (some ⟨gr.week, gr.home_team, gr.away_team,
            none⟩)) := by
  refine ⟨?_, ?_, ?_, ?_, gotw_points_zero_of_no_actual, fun rows gr => rfl⟩
  · intro games gotwRows w r v hfind hv
    unfold gotwActualForWeek
    rw [hfind]
    dsimp only
    rw [hv]
  · intro games gotwRows w r g hs aw hfind hov hg hh ha
    unfold gotwActualForWeek
    rw [hfind]
    dsimp only
    rw [hov, hg]
    dsimp only
    rw [hh, ha]
  · intro games gotwRows w r hfind hov hg
    unfold gotwActualForWeek
    rw [hfind]
    dsimp only
    rw [hov, hg]
  · intro games gotwRows w hfind
    unfold gotwActualForWeek
    rw [hfind]

/-- Witness for claim C5: the override and score-sum paths instantiated
concretely, and the no-actual week awarding zero GOTW points. -/
theorem C5_gotw_actual_total_witness :
    gotwActualForWeek c5Games [c5Gotw] 2 = some 45 ∧
    gotwActualForWeek c5Games [⟨2, "Alpha", "Beta", none⟩] 2 = some 30 ∧
    (∀ r ∈ weekTableCore 1 c5Games c5Picks none none, r.gotw_points = 0) ∧
    pubGotwActual (mkPubRows 2 c5Games c5Picks) (some c5Gotw) =
      pubGotwActual (mkPubRows 2 c5Games c5Picks)
        (some ⟨c5Gotw.week, c5Gotw.home_team, c5Gotw.away_team, none⟩) := by
  obtain ⟨h1, h2, h3, h4, h5, h6⟩ := C5_gotw_actual_total
  refine ⟨h1 c5Games [c5Gotw] 2 c5Gotw 45 (by decide) rfl,
    h2 c5Games [⟨2, "Alpha", "Beta", none⟩] 2 ⟨2, "Alpha", "Beta", none⟩
      ⟨2, "Alpha", "Beta", some 20, some 10, none⟩ 20 10
      (by decide) rfl (by decide) rfl rfl,
    h5 1 c5Games c5Picks none,
    h6 (mkPubRows 2 c5Games c5Picks) c5Gotw⟩

theorem ensureUser_scale (f : Nat) (m : List URow) (u : Nat) :
    ensureUser (m.map (scaleRow f)) u = (ensureUser m u).map (scaleRow f) := by
  unfold ensureUser
  have hany : (m.map (scaleRow f)).any (fun r => r.user_id = u) =
      m.any (fun r => r.user_id = u) := by
    rw [List.any_map]
    rfl
  rw [hany]
  split
  · rfl
  · rw [List.map_append]
    rfl

theorem mapUser_scale (f : Nat) (m : List URow) (u : Nat)
    (g1 g2 : URow → URow)
    (hg : ∀ r, g2 (scaleRow f r) = scaleRow f (g1 r)) :
    mapUser (m.map (scaleRow f)) u g2 = (mapUser m u g1).map (scaleRow f) := by
  unfold mapUser
  rw [List.map_map, List.map_map]
  apply List.map_congr_left
  intro r _
  by_cases hc : r.user_id = u
  · have h1 : (scaleRow f r).user_id = u := hc
    simp only [Function.comp_apply, if_pos hc, if_pos h1, hg r]
  · have h1 : ¬ (scaleRow f r).user_id = u := hc
    simp only [Function.comp_apply, if_neg hc, if_neg h1]

theorem baseStep_scale (f : Nat) (G : List GameRow) (m : List URow)
    (p : PickRow) :
    baseStep f G (m.map (scaleRow f)) p =
      (baseStep 1 G m p).map (scaleRow f) := by
  unfold baseStep
  dsimp only
  split
  · split
    · split
      · split
        · rw [ensureUser_scale]
          apply mapUser_scale
          intro r
          unfold scaleRow
          dsimp only
          congr 1 <;> ring
        · rw [ensureUser_scale]
          apply mapUser_scale
          intro r
          unfold scaleRow
          dsimp only
          congr 1 <;> ring
      · rw [ensureUser_scale]
        apply mapUser_scale
        intro r
        unfold scaleRow
        dsimp only
        congr 1 <;> ring
    · exact ensureUser_scale f m p.user_id
  · exact ensureUser_scale f m p.user_id

theorem gotwStep_scale (f : Nat) (m : List URow) (a : Nat × Nat) :
    gotwStep f (m.map (scaleRow f)) a = (gotwStep 1 m a).map (scaleRow f) := by
  unfold gotwStep
  apply mapUser_scale
  intro r
  unfold scaleRow
  dsimp only
  congr 1 <;> ring

theorem potwStep_scale (f : Nat) (m : List URow) (a : Nat × Nat) :
    potwStep f (m.map (scaleRow f)) a = (potwStep 1 m a).map (scaleRow f) := by
  unfold potwStep
  apply mapUser_scale
  intro r
  unfold scaleRow
  dsimp only
  congr 1 <;> ring

theorem foldl_scale {α : Type} (σ : URow → URow)
    (s1 s2 : List URow → α → List URow)
    (hc : ∀ m x, s2 (m.map σ) x = (s1 m x).map σ) :
    ∀ (l : List α) (m : List URow),
      l.foldl s2 (m.map σ) = (l.foldl s1 m).map σ := by
  intro l
  induction l with
  | nil => intro m; rfl
  | cons x xs ih =>
    intro m
    show xs.foldl s2 (s2 (m.map σ) x) = (xs.foldl s1 (s1 m x)).map σ
    rw [hc m x]
    exact ih (s1 m x)

/-- Scaling law for the whole weekly pipeline: running `weekTableCore` with
factor `f` yields exactly the factor-1 table with every points field
multiplied by `f` (podium membership, POTW exactness and the counters do
not depend on the factor). -/
theorem weekTableCore_scale (f : Nat) (G : List GameRow)
    (picks : List PickRow) (a po : Option Int) :
    weekTableCore f G picks a po =
      (weekTableCore 1 G picks a po).map (scaleRow f) := by
  unfold weekTableCore
  dsimp only
  have h1 : picks.foldl (baseStep f G) [] =
      (picks.foldl (baseStep 1 G) []).map (scaleRow f) := by
    have := foldl_scale (scaleRow f) (baseStep 1 G) (baseStep f G)
      (fun m x => baseStep_scale f G m x) picks []
    simpa using this
  rw [h1]
  rw [foldl_scale (scaleRow f) (gotwStep 1) (gotwStep f)
    (fun m x => gotwStep_scale f m x)]
  rw [foldl_scale (scaleRow f) (potwStep 1) (potwStep f)
    (fun m x => potwStep_scale f m x)]

theorem totalPoints_scale (f : Nat) (r : URow) :
    totalPoints (scaleRow f r) = f * totalPoints r := by
  unfold totalPoints scaleRow
  dsimp only
  ring

theorem userTotal_scale (f : Nat) (table : List URow) (u : Nat) :
    userTotal (table.map (scaleRow f)) u =
      (userTotal table u).map (fun n => f * n) := by
  unfold userTotal
  rw [List.find?_map]
  have hp : ((fun r => decide (r.user_id = u)) ∘ scaleRow f) =
      (fun r : URow => decide (r.user_id = u)) := rfl
  rw [hp, Option.map_map]
  cases table.find? (fun r : URow => decide (r.user_id = u)) with
  | none => rfl
  | some r =>
    show some (totalPoints (scaleRow f r)) = some (f * totalPoints r)
    rw [totalPoints_scale]

/-- Claim C4: for a week in the configured double-points set the whole
per-user weekly total (base + GOTW + POTW) is exactly twice the total
computed from identical data with the multiplier disabled; outside the set
the tables coincide (factor 1). -/
theorem C4_double_weeks :
    (∀ (dw : List Int) (w : Int) (games : List GameRow)
        (gotwRows : List GotwRow) (potwRows : List PotwRow)
        (picks : List PickRow) (u : Nat),
        dw.contains w = true →
        userTotal (computeWeekTable dw w games gotwRows potwRows picks) u =
          (userTotal (computeWeekTableNoMult w games gotwRows potwRows picks)
            u).map (fun n => 2 * n)) ∧
    (∀ (dw : List Int) (w : Int) (games : List GameRow)
        (gotwRows : List GotwRow) (potwRows : List PotwRow)
        (picks : List PickRow),
        dw.contains w = false →
        computeWeekTable dw w games gotwRows potwRows picks =
          computeWeekTableNoMult w games gotwRows potwRows picks) := by
  constructor
  · intro dw w games gotwRows potwRows picks u hdw
    unfold computeWeekTable computeWeekTableNoMult
    dsimp only
    rw [hdw]
    norm_num
    rw [weekTableCore_scale 2]
    exact userTotal_scale 2 _ u
  · intro dw w games gotwRows potwRows picks hdw
    unfold computeWeekTable computeWeekTableNoMult
    dsimp only
    rw [hdw]
    norm_num

/-- Witness for claim C4: the doubling law and the factor-1 law
instantiated on the concrete scenario data for week 13 and week 2. -/
theorem C4_double_weeks_witness :
    userTotal (computeWeekTable [13, 17] 13 []
      [⟨13, "Alpha", "Beta", some 45⟩] []
      [⟨1, 13, "Alpha", some 45, none, none, "alice"⟩]) 1 =
      (userTotal (computeWeekTableNoMult 13 []
        [⟨13, "Alpha", "Beta", some 45⟩] []
        [⟨1, 13, "Alpha", some 45, none, none, "alice"⟩]) 1).map
          (fun n => 2 * n) ∧
    computeWeekTable [13, 17] 2 c5Games [c5Gotw] [] c5Picks =
      computeWeekTableNoMult 2 c5Games [c5Gotw] [] c5Picks := by
  obtain ⟨h1, h2⟩ := C4_double_weeks
  exact ⟨h1 [13, 17] 13 [] [⟨13, "Alpha", "Beta", some 45⟩] []
      [⟨1, 13, "Alpha", some 45, none, none, "alice"⟩] 1 (by decide),
    h2 [13, 17] 2 c5Games [c5Gotw] [] c5Picks (by decide)⟩
